import Mathlib

/-!
# The user store of `server.js`

A shallow embedding of the request handlers of `src/server.js` (an Express
application keeping its users in a module-level array `users` and a counter
`nextId`), together with the part of the JavaScript runtime the handlers rely
on: truthiness, `String.prototype.trim`, `includes`, `toLowerCase`, the
relational operators `<` and `>` against a number, strict equality against a
string, and the global `parseInt`.

Modelling conventions.
* A request body is the triple of the properties `name`, `email`, `age` of the
  parsed JSON body; a property that is absent reads as `undefined`.
* A JSON number is the exact decimal value `m * 10 ^ e` of the double it was
  parsed to; every IEEE double is such a value, and the handlers only compare
  numbers with `1` and `120` and truncate numbers lying between the two, which
  is exact on doubles. A string converted by `ToNumber` is rounded to the
  nearest double.
* Identifiers and the counter are natural numbers (exact for counters below
  `2 ^ 53`).
* An exception raised inside a handler is caught by the handler's own
  `try ... catch` and answered with status 500; assignments made before the
  exception stay in place, as they do in the source.
-/

namespace RestApi

/-! ## Strings -/

/-- The code points removed by `String.prototype.trim`: the ECMAScript
`WhiteSpace` and `LineTerminator` productions. -/
def isWhiteSpace (c : Char) : Bool :=
  let n := c.toNat
  n == 0x09 || n == 0x0A || n == 0x0B || n == 0x0C || n == 0x0D || n == 0x20
    || n == 0xA0 || n == 0x1680 || (0x2000 ≤ n && n ≤ 0x200A)
    || n == 0x2028 || n == 0x2029 || n == 0x202F || n == 0x205F
    || n == 0x3000 || n == 0xFEFF

/-- Strip the leading white space of a character list. -/
def trimStartChars (cs : List Char) : List Char :=
  cs.dropWhile isWhiteSpace

/-- Strip white space on both ends of a character list. -/
def trimChars (cs : List Char) : List Char :=
  ((trimStartChars cs).reverse.dropWhile isWhiteSpace).reverse

/-- The method `String.prototype.trim`. -/
def trim (s : String) : String :=
  ⟨trimChars s.data⟩

/-- The lower-case mapping of one code point, as `String.prototype.toLowerCase`
applies it, for the cased letters of the blocks Basic Latin, Latin-1
Supplement, Latin Extended-A and basic Cyrillic (`U+0130` maps to the two code
points `U+0069 U+0307`); a code point outside these blocks is left as it is,
the rest of the Unicode case table belonging to the runtime. -/
def lowerChar (c : Char) : List Char :=
  let n := c.toNat
  if 0x41 ≤ n ∧ n ≤ 0x5A then [Char.ofNat (n + 32)]
  else if (0xC0 ≤ n ∧ n ≤ 0xD6) ∨ (0xD8 ≤ n ∧ n ≤ 0xDE) then [Char.ofNat (n + 32)]
  else if n = 0x130 then [Char.ofNat 0x69, Char.ofNat 0x307]
  else if n = 0x178 then [Char.ofNat 0xFF]
  else if ((0x100 ≤ n ∧ n ≤ 0x137) ∨ (0x14A ≤ n ∧ n ≤ 0x177)) ∧ n % 2 = 0 then
    [Char.ofNat (n + 1)]
  else if ((0x139 ≤ n ∧ n ≤ 0x148) ∨ (0x179 ≤ n ∧ n ≤ 0x17E)) ∧ n % 2 = 1 then
    [Char.ofNat (n + 1)]
  else if 0x400 ≤ n ∧ n ≤ 0x40F then [Char.ofNat (n + 80)]
  else if 0x410 ≤ n ∧ n ≤ 0x42F then [Char.ofNat (n + 32)]
  else [c]

/-- The method `String.prototype.toLowerCase`: every code point is replaced by
its lower-case mapping. -/
def toLowerCase (s : String) : String :=
  ⟨s.data.foldr (fun c acc => lowerChar c ++ acc) []⟩

/-- The call `s.includes('@')` on a string `s`. -/
def includesAt (s : String) : Bool :=
  s.data.contains '@'

/-! ## Numbers -/

/-- A JavaScript number: `NaN`, an infinity, or the finite value `m * 10 ^ e`. -/
inductive JSNumber where
  | nan
  | posInf
  | negInf
  | fin (m : Int) (e : Int)
  deriving DecidableEq, Repr

/-- The relational comparison `a < b` on numbers; any comparison with `NaN` is
false. Finite values are brought to their common (smaller) exponent. -/
def JSNumber.lt : JSNumber → JSNumber → Bool
  | .nan, _ => false
  | _, .nan => false
  | .posInf, _ => false
  | .negInf, .negInf => false
  | .negInf, _ => true
  | .fin _ _, .posInf => true
  | .fin _ _, .negInf => false
  | .fin m₁ e₁, .fin m₂ e₂ =>
    let e := min e₁ e₂
    decide (m₁ * 10 ^ (e₁ - e).toNat < m₂ * 10 ^ (e₂ - e).toNat)

/-- The integer part (towards zero) of the finite value `m * 10 ^ e`. -/
def truncate (m : Int) (e : Int) : Int :=
  if 0 ≤ e then m * 10 ^ e.toNat else Int.tdiv m (10 ^ (-e).toNat)

/-- The binary logarithm of `n`, rounded down, computed with `fuel` halvings at
most. -/
def log2Floor : Nat → Nat → Nat
  | 0, _ => 0
  | fuel + 1, n => if n < 2 then 0 else log2Floor fuel (n / 2) + 1

/-- The binary logarithm of a positive `n`, rounded down. -/
def binaryLog (n : Nat) : Nat :=
  log2Floor n n

/-- The double nearest to the rational `n / d` (for `0 < d`), a tie going to
the even significand, as IEEE 754 binary64 rounds: the significand has 53 bits,
the exponent of its last bit is at least `-1074` (subnormal numbers), and a
result of `2 ^ 1024` or more is `Infinity`. An integral result is written with
exponent `0`. -/
def roundToDouble (n d : Nat) : JSNumber :=
  if n = 0 then .fin 0 0
  else
    let E₀ : Int := (binaryLog n : Int) - (binaryLog d : Int)
    let reached : Bool :=
      if 0 ≤ E₀ then decide (d * 2 ^ E₀.toNat ≤ n) else decide (d ≤ n * 2 ^ (-E₀).toNat)
    let E : Int := if reached then E₀ else E₀ - 1
    let k : Int := max (E - 52) (-1074)
    let N : Nat := if 0 ≤ k then n else n * 2 ^ (-k).toNat
    let D : Nat := if 0 ≤ k then d * 2 ^ k.toNat else d
    let M₀ : Nat := N / D
    let R : Nat := N % D
    let M : Nat := if D < 2 * R ∨ (2 * R = D ∧ M₀ % 2 = 1) then M₀ + 1 else M₀
    if 0 ≤ k then
      if 2 ^ 1024 ≤ M * 2 ^ k.toNat then .posInf else .fin (M * 2 ^ k.toNat) 0
    else if (M * 5 ^ (-k).toNat) % 10 ^ (-k).toNat = 0 then
      .fin ((M * 5 ^ (-k).toNat / 10 ^ (-k).toNat : Nat)) 0
    else .fin (M * 5 ^ (-k).toNat) k

/-- The number value of the decimal `m * 10 ^ e` with `0 ≤ m`: the nearest
double. Beyond `10 ^ 309` the result is `Infinity` and below `10 ^ -324` it is
`0`, which spares computing the power. -/
def toDouble (m : Nat) (e : Int) : JSNumber :=
  if m = 0 then .fin 0 0
  else if 309 < e then .posInf
  else if e + (binaryLog m + 1 : Nat) < -324 then .fin 0 0
  else if 0 ≤ e then roundToDouble (m * 10 ^ e.toNat) 1
  else roundToDouble m (10 ^ (-e).toNat)

/-- The value of a string of decimal digits. -/
def decimalValue (ds : List Char) : Nat :=
  ds.foldl (fun acc c => acc * 10 + (c.toNat - 48)) 0

/-- The value of one digit in a radix up to 16, if the character is one. -/
def digitValue (radix : Nat) (c : Char) : Option Nat :=
  let n := c.toNat
  let v :=
    if 48 ≤ n ∧ n ≤ 57 then some (n - 48)
    else if 97 ≤ n ∧ n ≤ 102 then some (n - 87)
    else if 65 ≤ n ∧ n ≤ 70 then some (n - 55)
    else none
  match v with
  | some d => if d < radix then some d else none
  | none => none

/-- Whether the character is a digit of the radix. -/
def isDigitOf (radix : Nat) (c : Char) : Bool :=
  (digitValue radix c).isSome

/-- The value of a digit string in a radix up to 16. -/
def radixValue (radix : Nat) (ds : List Char) : Nat :=
  ds.foldl (fun acc c => acc * radix + (digitValue radix c).getD 0) 0

/-- The optional `ExponentPart` of a decimal literal, which has to use up the
whole remaining input: the exponent, or `none` when the input is malformed. -/
def exponentPart : List Char → Option Int
  | [] => some 0
  | c :: rest =>
    if c == 'e' || c == 'E' then
      match rest with
      | '+' :: ds => if ds ≠ [] ∧ ds.all Char.isDigit then some (decimalValue ds) else none
      | '-' :: ds => if ds ≠ [] ∧ ds.all Char.isDigit then some (-(decimalValue ds : Int)) else none
      | ds => if ds ≠ [] ∧ ds.all Char.isDigit then some (decimalValue ds) else none
    else none

/-- The production `StrUnsignedDecimalLiteral`: `Infinity`, or digits with an
optional fraction and exponent; at least one digit is required. The result is
the literal's value rounded to the nearest double, or `NaN` when the input does
not match. -/
def unsignedDecimal (cs : List Char) : JSNumber :=
  if cs = "Infinity".data then .posInf
  else
    let ip := cs.takeWhile Char.isDigit
    let r₁ := cs.dropWhile Char.isDigit
    let fp := match r₁ with
      | '.' :: t => t.takeWhile Char.isDigit
      | _ => []
    let r₂ := match r₁ with
      | '.' :: t => t.dropWhile Char.isDigit
      | _ => r₁
    if ip = [] ∧ fp = [] then .nan
    else
      match exponentPart r₂ with
      | some x => toDouble (decimalValue (ip ++ fp)) (x - fp.length)
      | none => .nan

/-- The negation of a number. -/
def JSNumber.neg : JSNumber → JSNumber
  | .nan => .nan
  | .posInf => .negInf
  | .negInf => .posInf
  | .fin m e => .fin (-m) e

/-- The production `NonDecimalIntegerLiteral` (`0x`, `0o`, `0b` and their upper
case forms), when the input starts with such a marker. -/
def nonDecimal? (cs : List Char) : Option JSNumber :=
  match cs with
  | '0' :: c :: ds =>
    let radix : Option Nat :=
      if c == 'x' || c == 'X' then some 16
      else if c == 'o' || c == 'O' then some 8
      else if c == 'b' || c == 'B' then some 2
      else none
    match radix with
    | some r =>
      if ds ≠ [] ∧ ds.all (isDigitOf r) then some (toDouble (radixValue r ds) 0) else some .nan
    | none => none
  | _ => none

/-- The abstract operation `StringToNumber`: the numeric value of a string
(white space on both ends is ignored, the empty string is `0`), `NaN` when the
string is not a numeric literal. The value of a literal is rounded to the
nearest double. -/
def stringToNumber (s : String) : JSNumber :=
  let cs := trimChars s.data
  match cs with
  | [] => .fin 0 0
  | '+' :: t => unsignedDecimal t
  | '-' :: t => (unsignedDecimal t).neg
  | _ =>
    match nonDecimal? cs with
    | some x => x
    | none => unsignedDecimal cs

/-- The global `parseInt` on a string, called with one argument: leading white
space and a sign are skipped, a `0x` marker selects radix 16, and the longest
run of digits is read; `none` stands for `NaN` (no digit could be read). The
integer is the exact one, which is the runtime's result up to `2 ^ 53`. -/
def parseIntString (s : String) : Option Int :=
  let cs := trimStartChars s.data
  let negative := match cs with
    | '-' :: _ => true
    | _ => false
  let cs₁ := match cs with
    | '-' :: t => t
    | '+' :: t => t
    | _ => cs
  let radix : Nat := match cs₁ with
    | '0' :: 'x' :: _ => 16
    | '0' :: 'X' :: _ => 16
    | _ => 10
  let cs₂ := match cs₁ with
    | '0' :: 'x' :: t => t
    | '0' :: 'X' :: t => t
    | _ => cs₁
  let ds := cs₂.takeWhile (isDigitOf radix)
  if ds = [] then none
  else if negative then some (-(radixValue radix ds : Int))
  else some (radixValue radix ds)

/-! ## Values -/

/-- A value read from a property of the parsed JSON body.

Primitive values are kept whole. Of an array the model keeps what the handlers
can observe: whether the string `"@"` is one of its elements (the answer of
`includes('@')`) and the string that `ToPrimitive` computes for it (its
elements joined by commas; `none` when computing it raises a `TypeError`). Of
an object it keeps whether the object has an own property `toString`; such a
property is a JSON value and hence not callable, which makes `ToPrimitive` raise
a `TypeError`, and without it `ToPrimitive` yields `"[object Object]"`. -/
inductive JSValue where
  | undefined
  | null
  | bool (b : Bool)
  | num (m : Int) (e : Int)
  | str (s : String)
  | arr (hasAt : Bool) (joined : Option String)
  | obj (ownToString : Bool)
  deriving Repr

/-- The exceptions the handlers can run into. -/
inductive JSError where
  | typeError
  deriving Repr, DecidableEq

/-- The operation `ToBoolean`: the condition `v` of `if (v)` and the operand of
`!v`. -/
def truthy : JSValue → Bool
  | .undefined => false
  | .null => false
  | .bool b => b
  | .num m _ => decide (m ≠ 0)
  | .str s => !s.data.isEmpty
  | .arr _ _ => true
  | .obj _ => true

/-- The test `v !== undefined`. -/
def isDefined : JSValue → Bool
  | .undefined => false
  | _ => true

/-- The call `v.trim()`: only strings have the method. -/
def callTrim : JSValue → Except JSError String
  | .str s => .ok (trim s)
  | _ => .error .typeError

/-- The call `v.includes('@')`: strings and arrays have the method. -/
def callIncludes : JSValue → Except JSError Bool
  | .str s => .ok (includesAt s)
  | .arr hasAt _ => .ok hasAt
  | _ => .error .typeError

/-- The operation `ToNumber`, as applied to the operand of `<` and `>` when the
other operand is a number. -/
def toNumber : JSValue → Except JSError JSNumber
  | .undefined => .ok .nan
  | .null => .ok (.fin 0 0)
  | .bool b => .ok (.fin (if b then 1 else 0) 0)
  | .num m e => .ok (.fin m e)
  | .str s => .ok (stringToNumber s)
  | .arr _ (some joined) => .ok (stringToNumber joined)
  | .arr _ none => .error .typeError
  | .obj false => .ok .nan
  | .obj true => .error .typeError

/-- The expression `v < k` for an integer literal `k`. -/
def lessThan (v : JSValue) (k : Int) : Except JSError Bool :=
  (toNumber v).map (fun x => x.lt (.fin k 0))

/-- The expression `v > k` for an integer literal `k`. -/
def greaterThan (v : JSValue) (k : Int) : Except JSError Bool :=
  (toNumber v).map (fun x => (JSNumber.fin k 0).lt x)

/-- The call `parseInt(v)`: the argument is converted to a string and read by
`parseIntString`; `none` is `NaN`. The strings of `undefined`, `null`, `true`,
`false` and `[object Object]` start with no digit. A number is printed in
positional notation when `10 ^ -6 ≤ |x| < 10 ^ 21`, the integer part read
back being its truncation; the handlers call `parseInt` on a number only after
checking `1 ≤ x ≤ 120`. -/
def parseInt : JSValue → Except JSError (Option Int)
  | .undefined => .ok none
  | .null => .ok none
  | .bool _ => .ok none
  | .num m e => .ok (some (truncate m e))
  | .str s => .ok (parseIntString s)
  | .arr _ (some joined) => .ok (parseIntString joined)
  | .arr _ none => .error .typeError
  | .obj false => .ok none
  | .obj true => .error .typeError

/-- The comparison `a === v` of a string `a` with a value: true only for the
same string. -/
def strictEq (a : String) : JSValue → Bool
  | .str s => decide (a = s)
  | _ => false

/-! ## The store -/

/-- A record of the array `users`. The age is whatever `parseInt` returned,
`none` being `NaN`. -/
structure User where
  id : Nat
  name : String
  email : String
  age : Option Int
  deriving DecidableEq, Repr

/-- The module state: the array `users` and the counter `nextId`. -/
structure Store where
  users : List User
  nextId : Nat
  deriving DecidableEq, Repr

/-- The state the module starts in. -/
def seed : Store :=
  { users :=
      [ { id := 1, name := "John Doe", email := "john@example.com", age := some 30 },
        { id := 2, name := "Jane Smith", email := "jane@example.com", age := some 25 },
        { id := 3, name := "Bob Johnson", email := "bob@example.com", age := some 35 } ],
    nextId := 4 }

/-- The properties `name`, `email` and `age` of a request body. -/
structure Body where
  name : JSValue
  email : JSValue
  age : JSValue
  deriving Repr

/-- What a handler answers: the status code with the payload that matters. -/
inductive Response where
  | listing (count : Nat) (data : List User)
  | found (data : User)
  | created (data : User)
  | updated (data : User)
  | deleted (data : Option User)
  | validation (errors : List String)
  | notFound
  | conflict
  | serverError
  deriving DecidableEq, Repr

/-- The HTTP status code of a response. -/
def Response.status : Response → Nat
  | .listing _ _ => 200
  | .found _ => 200
  | .created _ => 201
  | .updated _ => 200
  | .deleted _ => 200
  | .validation _ => 400
  | .notFound => 404
  | .conflict => 409
  | .serverError => 500

/-- The test `user.id === parseInt(id)` on a route parameter `id`. -/
def matchesId (id : String) (user : User) : Bool :=
  decide (parseIntString id = some (user.id : Int))

/-- The helper `findUserById`. -/
def findUserById (users : List User) (id : String) : Option User :=
  users.find? (matchesId id)

/-- An assignment through the reference returned by `findUserById`: the first
record matching the route parameter is changed in place. -/
def assignFound (users : List User) (id : String) (f : User → User) : List User :=
  match users with
  | [] => []
  | u :: rest => if matchesId id u then f u :: rest else u :: assignFound rest id f

/-! ## Validation -/

/-- The condition `!userData.name || userData.name.trim().length === 0`. -/
def nameRejected (name : JSValue) : Except JSError Bool :=
  if !truthy name then .ok true
  else (callTrim name).map (fun t => t.length == 0)

/-- The condition `!userData.email || !userData.email.includes('@')`. -/
def emailRejected (email : JSValue) : Except JSError Bool :=
  if !truthy email then .ok true
  else (callIncludes email).map (fun b => !b)

/-- The condition `!userData.age || userData.age < 1 || userData.age > 120`. -/
def ageRejected (age : JSValue) : Except JSError Bool :=
  if !truthy age then .ok true
  else
    match lessThan age 1 with
    | .error err => .error err
    | .ok true => .ok true
    | .ok false => greaterThan age 120

/-- The helper `validateUser`: the three conditions are evaluated in turn and
each one that holds pushes its message. -/
def validateUser (userData : Body) : Except JSError (List String) := do
  let errors₀ : List String := []
  let c₁ ← nameRejected userData.name
  let errors₁ := if c₁ then errors₀ ++ ["Name is required"] else errors₀
  let c₂ ← emailRejected userData.email
  let errors₂ := if c₂ then errors₁ ++ ["Valid email is required"] else errors₁
  let c₃ ← ageRejected userData.age
  let errors₃ := if c₃ then errors₂ ++ ["Age must be between 1 and 120"] else errors₂
  return errors₃

/-- The validation inside the `PATCH` handler: only properties that are not
`undefined` are looked at. Its conditions are
`updates.name !== undefined && (!updates.name || updates.name.trim().length === 0)`,
`updates.email !== undefined && (!updates.email || !updates.email.includes('@'))`
and `updates.age !== undefined && (updates.age < 1 || updates.age > 120)`. -/
def validatePatch (updates : Body) : Except JSError (List String) := do
  let errors₀ : List String := []
  let c₁ ← if isDefined updates.name then nameRejected updates.name else pure false
  let errors₁ := if c₁ then errors₀ ++ ["Name cannot be empty"] else errors₀
  let c₂ ← if isDefined updates.email then emailRejected updates.email else pure false
  let errors₂ := if c₂ then errors₁ ++ ["Valid email is required"] else errors₁
  let c₃ ←
    if isDefined updates.age then
      match lessThan updates.age 1 with
      | .error err => .error err
      | .ok true => .ok true
      | .ok false => greaterThan updates.age 120
    else pure false
  let errors₃ := if c₃ then errors₂ ++ ["Age must be between 1 and 120"] else errors₂
  return errors₃

/-! ## Handlers -/

/-- The handler of `GET /api/users`. -/
def listUsers (s : Store) : Store × Response :=
  (s, .listing s.users.length s.users)

/-- The handler of `GET /api/users/:id`. -/
def getUser (s : Store) (id : String) : Store × Response :=
  match findUserById s.users id with
  | none => (s, .notFound)
  | some user => (s, .found user)

/-- The handler of `POST /api/users`. The object literal of `newUser` evaluates
`nextId++` first, so the counter is already advanced when `trim` or `parseInt`
raises. -/
def createUser (s : Store) (body : Body) : Store × Response :=
  match validateUser body with
  | .error _ => (s, .serverError)
  | .ok errors =>
    if errors.length > 0 then (s, .validation errors)
    else
      match s.users.find? (fun user => strictEq user.email body.email) with
      | some _ => (s, .conflict)
      | none =>
        let s₁ : Store := { s with nextId := s.nextId + 1 }
        match callTrim body.name with
        | .error _ => (s₁, .serverError)
        | .ok name =>
          match callTrim body.email with
          | .error _ => (s₁, .serverError)
          | .ok email =>
            match parseInt body.age with
            | .error _ => (s₁, .serverError)
            | .ok age =>
              let newUser : User :=
                { id := s.nextId, name := name, email := toLowerCase email, age := age }
              ({ s₁ with users := s₁.users ++ [newUser] }, .created newUser)

/-- The handler of `PUT /api/users/:id`. The three assignments happen one after
the other on the record found. -/
def replaceUser (s : Store) (id : String) (body : Body) : Store × Response :=
  match findUserById s.users id with
  | none => (s, .notFound)
  | some user =>
    match validateUser body with
    | .error _ => (s, .serverError)
    | .ok errors =>
      if errors.length > 0 then (s, .validation errors)
      else
        match s.users.find? (fun u => strictEq u.email body.email && u.id != user.id) with
        | some _ => (s, .conflict)
        | none =>
          match callTrim body.name with
          | .error _ => (s, .serverError)
          | .ok name =>
            let s₁ : Store :=
              { s with users := assignFound s.users id (fun u => { u with name := name }) }
            match callTrim body.email with
            | .error _ => (s₁, .serverError)
            | .ok email =>
              let s₂ : Store :=
                { s₁ with users :=
                    assignFound s₁.users id (fun u => { u with email := toLowerCase email }) }
              match parseInt body.age with
              | .error _ => (s₂, .serverError)
              | .ok age =>
                let s₃ : Store :=
                  { s₂ with users := assignFound s₂.users id (fun u => { u with age := age }) }
                (s₃, .updated { user with name := name, email := toLowerCase email, age := age })

/-- The statement `if (updates.name) user.name = updates.name.trim();`. -/
def applyName (s : Store) (id : String) (user : User) (updates : Body) :
    Except JSError (Store × User) :=
  if truthy updates.name then
    (callTrim updates.name).map (fun name =>
      ({ s with users := assignFound s.users id (fun u => { u with name := name }) },
       { user with name := name }))
  else .ok (s, user)

/-- The statement
`if (updates.email) user.email = updates.email.trim().toLowerCase();`. -/
def applyEmail (s : Store) (id : String) (user : User) (updates : Body) :
    Except JSError (Store × User) :=
  if truthy updates.email then
    (callTrim updates.email).map (fun email =>
      ({ s with users :=
          assignFound s.users id (fun u => { u with email := toLowerCase email }) },
       { user with email := toLowerCase email }))
  else .ok (s, user)

/-- The statement `if (updates.age) user.age = parseInt(updates.age);`. -/
def applyAge (s : Store) (id : String) (user : User) (updates : Body) :
    Except JSError (Store × User) :=
  if truthy updates.age then
    (parseInt updates.age).map (fun age =>
      ({ s with users := assignFound s.users id (fun u => { u with age := age }) },
       { user with age := age }))
  else .ok (s, user)

/-- The handler of `PATCH /api/users/:id`. -/
def patchUser (s : Store) (id : String) (updates : Body) : Store × Response :=
  match findUserById s.users id with
  | none => (s, .notFound)
  | some user =>
    match validatePatch updates with
    | .error _ => (s, .serverError)
    | .ok errors =>
      if errors.length > 0 then (s, .validation errors)
      else if truthy updates.email && !strictEq user.email updates.email
          && (s.users.find? (fun u => strictEq u.email updates.email && u.id != user.id)).isSome
      then (s, .conflict)
      else
        match applyName s id user updates with
        | .error _ => (s, .serverError)
        | .ok (s₁, user₁) =>
          match applyEmail s₁ id user₁ updates with
          | .error _ => (s₁, .serverError)
          | .ok (s₂, user₂) =>
            match applyAge s₂ id user₂ updates with
            | .error _ => (s₂, .serverError)
            | .ok (s₃, user₃) => (s₃, .updated user₃)

/-- The handler of `DELETE /api/users/:id`: `findIndex`, then
`splice(userIndex, 1)[0]`. -/
def deleteUser (s : Store) (id : String) : Store × Response :=
  match s.users.findIdx? (matchesId id) with
  | none => (s, .notFound)
  | some userIndex =>
    ({ s with users := s.users.eraseIdx userIndex }, .deleted s.users[userIndex]?)

/-! ## Requests and reachable states -/

/-- A request to one of the routes under `/api/users`. -/
inductive Request where
  | list
  | get (id : String)
  | post (body : Body)
  | put (id : String) (body : Body)
  | patch (id : String) (body : Body)
  | delete (id : String)
  deriving Repr

/-- Dispatch a request to its handler. -/
def handle (s : Store) : Request → Store × Response
  | .list => listUsers s
  | .get id => getUser s id
  | .post body => createUser s body
  | .put id body => replaceUser s id body
  | .patch id body => patchUser s id body
  | .delete id => deleteUser s id

/-- Serve a sequence of requests one after the other, from a given state. -/
def run (s : Store) : List Request → Store
  | [] => s
  | r :: rs => run (handle s r).1 rs

/-- The states the server can be in: those some finite sequence of requests
leads to from the seed state. -/
def Reachable (s : Store) : Prop :=
  ∃ rs : List Request, run seed rs = s

/-! ## Properties stated by the specification -/

/-- Normalization of an email: trim, then lower-case. -/
def normalizeEmail (email : String) : String :=
  toLowerCase (trim email)

/-- The emails of the live records are pairwise distinct after normalization. -/
def EmailsDistinct (s : Store) : Prop :=
  (s.users.map (fun u => normalizeEmail u.email)).Nodup

/-- The ids of the live records increase strictly along the list. -/
def IdsIncreasing (s : Store) : Prop :=
  (s.users.map User.id).Pairwise (fun a b => a < b)

/-- Every live id lies strictly below the counter. -/
def IdsBelowCounter (s : Store) : Prop :=
  ∀ u ∈ s.users, u.id < s.nextId

/-- The field constraints of a record: a non-empty trimmed name, a trimmed
lower-case email containing `@`, and an integer age between 1 and 120. -/
def FieldsValid (u : User) : Prop :=
  u.name ≠ "" ∧ trim u.name = u.name ∧ includesAt u.email = true
    ∧ toLowerCase (trim u.email) = u.email
    ∧ ∃ n : Int, u.age = some n ∧ 1 ≤ n ∧ n ≤ 120

/-- A body whose `name` and `email` are strings or missing (absent or `null`)
and whose `age` is a primitive value. -/
def Body.Plain (b : Body) : Prop :=
  (b.name = .undefined ∨ b.name = .null ∨ ∃ s, b.name = .str s)
    ∧ (b.email = .undefined ∨ b.email = .null ∨ ∃ s, b.email = .str s)
    ∧ (b.age = .undefined ∨ b.age = .null ∨ (∃ x, b.age = .bool x)
        ∨ (∃ m e, b.age = .num m e) ∨ ∃ s, b.age = .str s)

/-- The messages of full validation for given outcomes of the three
conditions, each field contributing on its own. -/
def messagesFor (c₁ c₂ c₃ : Bool) : List String :=
  (if c₁ then ["Name is required"] else [])
    ++ (if c₂ then ["Valid email is required"] else [])
    ++ (if c₃ then ["Age must be between 1 and 120"] else [])

/-- The rational value of the JSON number `m * 10 ^ e`. -/
def numValue (m : Int) (e : Int) : ℚ :=
  (m : ℚ) * (10 : ℚ) ^ e

/-- The record at position `k` is the first one matching the route parameter:
the record `findUserById` returns and assignments through it change. -/
def FirstMatch (users : List User) (id : String) (k : Nat) (user : User) : Prop :=
  users[k]? = some user ∧ matchesId id user = true
    ∧ ∀ j v, j < k → users[j]? = some v → matchesId id v = false

/-- No live record has the id the route parameter reads as. -/
def IdAbsent (users : List User) (id : String) : Prop :=
  ∀ u ∈ users, matchesId id u = false

/-- The condition of the `PATCH` handler on `updates.name`. -/
def patchNameRejected (name : JSValue) : Except JSError Bool :=
  if isDefined name then nameRejected name else pure false

/-- The condition of the `PATCH` handler on `updates.email`. -/
def patchEmailRejected (email : JSValue) : Except JSError Bool :=
  if isDefined email then emailRejected email else pure false

/-- The condition of the `PATCH` handler on `updates.age`. -/
def patchAgeRejected (age : JSValue) : Except JSError Bool :=
  if isDefined age then
    match lessThan age 1 with
    | .error err => .error err
    | .ok true => .ok true
    | .ok false => greaterThan age 120
  else pure false

/-- The messages of the `PATCH` validation for given outcomes of its three
conditions. -/
def patchMessagesFor (c₁ c₂ c₃ : Bool) : List String :=
  (if c₁ then ["Name cannot be empty"] else [])
    ++ (if c₂ then ["Valid email is required"] else [])
    ++ (if c₃ then ["Age must be between 1 and 120"] else [])

/-! ## Emails: the uniqueness check compares the raw input -/

/-- C1. Evaluation at the failing input: from the seed state, the request
`POST {name: "X", email: "JOHN@EXAMPLE.COM", age: 20}` is answered with 201 and
leads to a reachable state holding two records with the email
`john@example.com`, so the emails of the live records are not pairwise
distinct. -/
theorem duplicate_email_reachable :
    Reachable (createUser seed ⟨.str "X", .str "JOHN@EXAMPLE.COM", .num 20 0⟩).1
      ∧ (createUser seed ⟨.str "X", .str "JOHN@EXAMPLE.COM", .num 20 0⟩).2.status = 201
      ∧ ¬ EmailsDistinct (createUser seed ⟨.str "X", .str "JOHN@EXAMPLE.COM", .num 20 0⟩).1 := by
  refine ⟨⟨[.post ⟨.str "X", .str "JOHN@EXAMPLE.COM", .num 20 0⟩], rfl⟩, by decide, ?_⟩
  unfold EmailsDistinct
  decide

/-- C4. Evaluation at the failing input: the candidate
`("Y", "  Jane@Example.com ", 41)` passes full validation and its normalized
email equals the normalized email of the live record 2, yet `createUser`
answers 201 and appends a fourth record with the email `jane@example.com`. -/
theorem create_accepts_colliding_email :
    validateUser ⟨.str "Y", .str "  Jane@Example.com ", .num 41 0⟩ = .ok []
      ∧ (∃ u ∈ seed.users, normalizeEmail u.email = normalizeEmail "  Jane@Example.com ")
      ∧ createUser seed ⟨.str "Y", .str "  Jane@Example.com ", .num 41 0⟩
          = ({ users := seed.users ++ [⟨4, "Y", "jane@example.com", some 41⟩], nextId := 5 },
             .created ⟨4, "Y", "jane@example.com", some 41⟩) := by
  refine ⟨rfl, ⟨⟨2, "Jane Smith", "jane@example.com", some 25⟩, by decide, by decide⟩, ?_⟩
  decide

/-! ## Identifiers -/

/-- An assignment that keeps the id leaves the list of ids as it was. -/
theorem assignFound_map_id (users : List User) (id : String) (f : User → User)
    (hf : ∀ u, (f u).id = u.id) :
    (assignFound users id f).map User.id = users.map User.id := by
  induction users with
  | nil => rfl
  | cons u rest ih =>
    unfold assignFound
    split
    · simp [hf]
    · simp [ih]

/-- The state after `createUser`: untouched, or the counter advanced, or the
counter advanced and one record with the old counter as id appended. -/
theorem createUser_state (s : Store) (b : Body) :
    (createUser s b).1 = s
      ∨ (createUser s b).1 = { s with nextId := s.nextId + 1 }
      ∨ ∃ u : User, u.id = s.nextId
          ∧ (createUser s b).1 = { users := s.users ++ [u], nextId := s.nextId + 1 } := by
  unfold createUser
  repeat' split
  all_goals simp

/-- The handler `replaceUser` keeps the counter and the list of ids. -/
theorem replaceUser_ids (s : Store) (id : String) (b : Body) :
    (replaceUser s id b).1.nextId = s.nextId
      ∧ (replaceUser s id b).1.users.map User.id = s.users.map User.id := by
  unfold replaceUser
  repeat' split
  all_goals simp [assignFound_map_id]

/-- The assignment of the name keeps the counter and the list of ids. -/
theorem applyName_ids (s s₁ : Store) (id : String) (user user₁ : User) (updates : Body)
    (h : applyName s id user updates = .ok (s₁, user₁)) :
    s₁.nextId = s.nextId ∧ s₁.users.map User.id = s.users.map User.id := by
  unfold applyName at h
  split at h
  · cases hc : callTrim updates.name with
    | error err => simp [hc, Except.map] at h
    | ok name =>
      simp only [hc, Except.map, Except.ok.injEq, Prod.mk.injEq] at h
      obtain ⟨rfl, -⟩ := h
      simp [assignFound_map_id]
  · simp only [Except.ok.injEq, Prod.mk.injEq] at h
    obtain ⟨rfl, -⟩ := h
    simp

/-- The assignment of the email keeps the counter and the list of ids. -/
theorem applyEmail_ids (s s₁ : Store) (id : String) (user user₁ : User) (updates : Body)
    (h : applyEmail s id user updates = .ok (s₁, user₁)) :
    s₁.nextId = s.nextId ∧ s₁.users.map User.id = s.users.map User.id := by
  unfold applyEmail at h
  split at h
  · cases hc : callTrim updates.email with
    | error err => simp [hc, Except.map] at h
    | ok email =>
      simp only [hc, Except.map, Except.ok.injEq, Prod.mk.injEq] at h
      obtain ⟨rfl, -⟩ := h
      simp [assignFound_map_id]
  · simp only [Except.ok.injEq, Prod.mk.injEq] at h
    obtain ⟨rfl, -⟩ := h
    simp

/-- The assignment of the age keeps the counter and the list of ids. -/
theorem applyAge_ids (s s₁ : Store) (id : String) (user user₁ : User) (updates : Body)
    (h : applyAge s id user updates = .ok (s₁, user₁)) :
    s₁.nextId = s.nextId ∧ s₁.users.map User.id = s.users.map User.id := by
  unfold applyAge at h
  split at h
  · cases hc : parseInt updates.age with
    | error err => simp [hc, Except.map] at h
    | ok age =>
      simp only [hc, Except.map, Except.ok.injEq, Prod.mk.injEq] at h
      obtain ⟨rfl, -⟩ := h
      simp [assignFound_map_id]
  · simp only [Except.ok.injEq, Prod.mk.injEq] at h
    obtain ⟨rfl, -⟩ := h
    simp

/-- The handler `patchUser` keeps the counter and the list of ids. -/
theorem patchUser_ids (s : Store) (id : String) (b : Body) :
    (patchUser s id b).1.nextId = s.nextId
      ∧ (patchUser s id b).1.users.map User.id = s.users.map User.id := by
  unfold patchUser
  split
  · simp
  · rename_i user _
    split
    · simp
    · split
      · simp
      · split
        · simp
        · cases h₁ : applyName s id user b with
          | error err => simp
          | ok r₁ =>
            obtain ⟨s₁, user₁⟩ := r₁
            have i₁ := applyName_ids s s₁ id user user₁ b h₁
            simp only
            cases h₂ : applyEmail s₁ id user₁ b with
            | error err => exact i₁
            | ok r₂ =>
              obtain ⟨s₂, user₂⟩ := r₂
              have i₂ := applyEmail_ids s₁ s₂ id user₁ user₂ b h₂
              simp only
              cases h₃ : applyAge s₂ id user₂ b with
              | error err => exact ⟨i₂.1.trans i₁.1, i₂.2.trans i₁.2⟩
              | ok r₃ =>
                obtain ⟨s₃, user₃⟩ := r₃
                have i₃ := applyAge_ids s₂ s₃ id user₂ user₃ b h₃
                exact ⟨i₃.1.trans (i₂.1.trans i₁.1), i₃.2.trans (i₂.2.trans i₁.2)⟩

/-- The handler `deleteUser` keeps the counter and either leaves the list alone
or erases one position of it. -/
theorem deleteUser_state (s : Store) (id : String) :
    (deleteUser s id).1.nextId = s.nextId
      ∧ ((deleteUser s id).1.users = s.users
          ∨ ∃ i, (deleteUser s id).1.users = s.users.eraseIdx i) := by
  unfold deleteUser
  split
  · simp
  · rename_i i _
    exact ⟨rfl, Or.inr ⟨i, rfl⟩⟩

/-- The id invariant on the list of ids: strictly increasing and below the
counter. -/
theorem idInv_handle (s : Store) (r : Request)
    (h : (s.users.map User.id).Pairwise (fun a b => a < b)
      ∧ ∀ i ∈ s.users.map User.id, i < s.nextId) :
    ((handle s r).1.users.map User.id).Pairwise (fun a b => a < b)
      ∧ ∀ i ∈ (handle s r).1.users.map User.id, i < (handle s r).1.nextId := by
  obtain ⟨hp, hb⟩ := h
  cases r with
  | list => exact ⟨hp, hb⟩
  | get id =>
    have e : (handle s (.get id)).1 = s := by
      simp only [handle, getUser]
      split <;> rfl
    rw [e]
    exact ⟨hp, hb⟩
  | post body =>
    simp only [handle]
    rcases createUser_state s body with e | e | ⟨u, hu, e⟩
    · rw [e]
      exact ⟨hp, hb⟩
    · rw [e]
      exact ⟨hp, fun i hi => Nat.lt_succ_of_lt (hb i hi)⟩
    · rw [e]
      refine ⟨?_, ?_⟩
      · simp only [List.map_append, List.map_cons, List.map_nil]
        rw [List.pairwise_append]
        refine ⟨hp, List.pairwise_singleton _ _, ?_⟩
        intro a ha c hc
        simp only [List.mem_singleton] at hc
        rw [hc, hu]
        exact hb a ha
      · intro i hi
        simp only [List.map_append, List.map_cons, List.map_nil, List.mem_append,
          List.mem_singleton] at hi
        rcases hi with hi | hi
        · exact Nat.lt_succ_of_lt (hb i hi)
        · rw [hi, hu]
          exact Nat.lt_succ_self _
  | put id body =>
    simp only [handle]
    obtain ⟨e₁, e₂⟩ := replaceUser_ids s id body
    rw [e₁, e₂]
    exact ⟨hp, hb⟩
  | patch id body =>
    simp only [handle]
    obtain ⟨e₁, e₂⟩ := patchUser_ids s id body
    rw [e₁, e₂]
    exact ⟨hp, hb⟩
  | delete id =>
    simp only [handle]
    obtain ⟨e₁, e₂⟩ := deleteUser_state s id
    rw [e₁]
    rcases e₂ with e | ⟨i, e⟩
    · rw [e]
      exact ⟨hp, hb⟩
    · rw [e]
      have sub : ((s.users.eraseIdx i).map User.id).Sublist (s.users.map User.id) :=
        (List.eraseIdx_sublist s.users i).map User.id
      exact ⟨hp.sublist sub, fun a ha => hb a (sub.subset ha)⟩

/-- The id invariant is kept along any sequence of requests. -/
theorem idInv_run (rs : List Request) (s : Store)
    (h : (s.users.map User.id).Pairwise (fun a b => a < b)
      ∧ ∀ i ∈ s.users.map User.id, i < s.nextId) :
    ((run s rs).users.map User.id).Pairwise (fun a b => a < b)
      ∧ ∀ i ∈ (run s rs).users.map User.id, i < (run s rs).nextId := by
  induction rs generalizing s with
  | nil => exact h
  | cons r rs ih => exact ih (handle s r).1 (idInv_handle s r h)

/-- The id invariant holds in every reachable state. -/
theorem idInv_reachable (s : Store) (h : Reachable s) :
    (s.users.map User.id).Pairwise (fun a b => a < b)
      ∧ ∀ i ∈ s.users.map User.id, i < s.nextId := by
  obtain ⟨rs, rfl⟩ := h
  exact idInv_run rs seed ⟨by decide, by decide⟩

/-- C2. In every reachable state the ids of the live records are pairwise
distinct, strictly increasing in list order, and each of them is strictly below
the counter `nextId`; and the seed state has its counter one past the highest
seed id. -/
theorem id_invariant (s : Store) (h : Reachable s) :
    (s.users.map User.id).Nodup ∧ IdsIncreasing s ∧ IdsBelowCounter s
      ∧ seed.nextId = (seed.users.map User.id).foldr max 0 + 1 := by
  obtain ⟨hp, hb⟩ := idInv_reachable s h
  refine ⟨?_, hp, ?_, by decide⟩
  · exact hp.imp (fun hab => Nat.ne_of_lt hab)
  · intro u hu
    exact hb u.id (List.mem_map_of_mem User.id hu)

/-- C2, at the state reached from the seed by a creation, a creation that
fails on an array-valued email, and the deletion of record 2. -/
theorem id_invariant_witness :
    Reachable (run seed [.post ⟨.str "A", .str "a@b.c", .num 20 0⟩,
        .post ⟨.str "B", .arr true (some "@"), .num 20 0⟩, .delete "2"])
      ∧ ((run seed [.post ⟨.str "A", .str "a@b.c", .num 20 0⟩,
        .post ⟨.str "B", .arr true (some "@"), .num 20 0⟩, .delete "2"]).users.map User.id).Nodup :=
  ⟨⟨_, rfl⟩, (id_invariant _ ⟨_, rfl⟩).1⟩

/-! ## Validation -/

/-- The helper `validateUser` as the three conditions in sequence: it returns
exactly when all three can be evaluated, with the messages of those that
hold. -/
theorem validateUser_eq (b : Body) :
    validateUser b =
      (nameRejected b.name).bind (fun c₁ =>
        (emailRejected b.email).bind (fun c₂ =>
          (ageRejected b.age).bind (fun c₃ => .ok (messagesFor c₁ c₂ c₃)))) := by
  unfold validateUser
  cases h₁ : nameRejected b.name with
  | error err => rfl
  | ok c₁ =>
    cases h₂ : emailRejected b.email with
    | error err => rfl
    | ok c₂ =>
      cases h₃ : ageRejected b.age with
      | error err => rfl
      | ok c₃ =>
        cases c₁ <;> cases c₂ <;> cases c₃ <;> rfl

/-- When `validateUser` returns, each condition was evaluated. -/
theorem validateUser_ok (b : Body) (errs : List String) (h : validateUser b = .ok errs) :
    ∃ c₁ c₂ c₃, nameRejected b.name = .ok c₁ ∧ emailRejected b.email = .ok c₂
      ∧ ageRejected b.age = .ok c₃ ∧ errs = messagesFor c₁ c₂ c₃ := by
  rw [validateUser_eq] at h
  cases h₁ : nameRejected b.name with
  | error err => simp [h₁, Except.bind] at h
  | ok c₁ =>
    cases h₂ : emailRejected b.email with
    | error err => simp [h₁, h₂, Except.bind] at h
    | ok c₂ =>
      cases h₃ : ageRejected b.age with
      | error err => simp [h₁, h₂, h₃, Except.bind] at h
      | ok c₃ =>
        simp only [h₁, h₂, h₃, Except.bind, Except.ok.injEq] at h
        exact ⟨c₁, c₂, c₃, rfl, rfl, rfl, h.symm⟩

/-- No message means no condition held. -/
theorem messagesFor_eq_nil (c₁ c₂ c₃ : Bool) :
    messagesFor c₁ c₂ c₃ = [] ↔ c₁ = false ∧ c₂ = false ∧ c₃ = false := by
  cases c₁ <;> cases c₂ <;> cases c₃ <;> simp [messagesFor]

/-- A name passes its condition only if it is a string that is not empty
after trimming. -/
theorem nameRejected_false (v : JSValue) (h : nameRejected v = .ok false) :
    ∃ s, v = .str s ∧ (trim s).length ≠ 0 := by
  unfold nameRejected at h
  split at h
  · simp at h
  · cases v with
    | str s =>
      refine ⟨s, rfl, ?_⟩
      simpa [callTrim, Except.map] using h
    | _ => simp [callTrim, Except.map] at h

/-- An email passes its condition only if it is a string containing `@` or an
array having the string `"@"` among its elements. -/
theorem emailRejected_false (v : JSValue) (h : emailRejected v = .ok false) :
    (∃ s, v = .str s ∧ includesAt s = true) ∨ ∃ joined, v = .arr true joined := by
  unfold emailRejected at h
  split at h
  · simp at h
  · cases v with
    | str s =>
      refine Or.inl ⟨s, rfl, ?_⟩
      simpa [callIncludes, Except.map] using h
    | arr hasAt joined =>
      refine Or.inr ⟨joined, ?_⟩
      have : hasAt = true := by simpa [callIncludes, Except.map] using h
      rw [this]
    | _ => simp [callIncludes, Except.map] at h

/-- An age passes its condition only if it is truthy and converts to a number
that is neither below 1 nor above 120. -/
theorem ageRejected_false (v : JSValue) (h : ageRejected v = .ok false) :
    truthy v = true ∧ ∃ x, toNumber v = .ok x ∧ x.lt (.fin 1 0) = false
      ∧ (JSNumber.fin 120 0).lt x = false := by
  unfold ageRejected at h
  split at h
  · simp at h
  · rename_i ht
    refine ⟨by simpa using ht, ?_⟩
    cases hx : toNumber v with
    | error err => simp [lessThan, hx, Except.map] at h
    | ok x =>
      refine ⟨x, rfl, ?_⟩
      simp only [lessThan, greaterThan, hx, Except.map] at h
      split at h
      · simp at h
      · simp at h
      · rename_i h₁
        simp only [Except.ok.injEq] at h₁ h
        exact ⟨h₁, h⟩

/-- Whenever a value converts to a number, `parseInt` accepts it too. -/
theorem parseInt_of_toNumber (v : JSValue) (x : JSNumber) (h : toNumber v = .ok x) :
    ∃ a, parseInt v = .ok a := by
  cases v with
  | arr hasAt joined =>
    cases joined with
    | none => simp [toNumber] at h
    | some j => exact ⟨_, rfl⟩
  | obj own =>
    cases own with
    | true => simp [toNumber] at h
    | false => exact ⟨_, rfl⟩
  | _ => exact ⟨_, rfl⟩

/-- On a plain body every condition of `validateUser` can be evaluated. -/
theorem validateUser_plain (b : Body) (h : b.Plain) : ∃ errs, validateUser b = .ok errs := by
  obtain ⟨hn, he, ha⟩ := h
  have h₁ : ∃ c, nameRejected b.name = .ok c := by
    rcases hn with e | e | ⟨s, e⟩ <;> rw [e] <;> simp only [nameRejected, truthy, callTrim]
    · exact ⟨_, rfl⟩
    · exact ⟨_, rfl⟩
    · split <;> exact ⟨_, rfl⟩
  have h₂ : ∃ c, emailRejected b.email = .ok c := by
    rcases he with e | e | ⟨s, e⟩ <;> rw [e] <;> simp only [emailRejected, truthy, callIncludes]
    · exact ⟨_, rfl⟩
    · exact ⟨_, rfl⟩
    · split <;> exact ⟨_, rfl⟩
  have h₃ : ∃ c, ageRejected b.age = .ok c := by
    have key : ∀ v x, toNumber v = .ok x → ∃ c, ageRejected v = .ok c := by
      intro v x hx
      simp only [ageRejected, lessThan, greaterThan, hx, Except.map]
      split
      · exact ⟨_, rfl⟩
      · split
        · rename_i hh
          simp at hh
        · exact ⟨_, rfl⟩
        · exact ⟨_, rfl⟩
    rcases ha with e | e | ⟨x, e⟩ | ⟨m, x, e⟩ | ⟨s, e⟩ <;> rw [e]
    · exact key _ _ rfl
    · exact key _ _ rfl
    · exact key _ _ rfl
    · exact key _ _ rfl
    · exact key _ _ rfl
  obtain ⟨c₁, h₁⟩ := h₁
  obtain ⟨c₂, h₂⟩ := h₂
  obtain ⟨c₃, h₃⟩ := h₃
  exact ⟨messagesFor c₁ c₂ c₃, by rw [validateUser_eq, h₁, h₂, h₃]; rfl⟩

/-! ## Creation -/

/-- An exception in validation is answered with 500 and changes nothing. -/
theorem createUser_of_throw (s : Store) (b : Body) (err : JSError)
    (h : validateUser b = .error err) : createUser s b = (s, .serverError) := by
  simp [createUser, h]

/-- A non-empty list of messages is answered with 400 and changes nothing,
whatever the emails of the live records are. -/
theorem createUser_of_errors (s : Store) (b : Body) (errs : List String)
    (h : validateUser b = .ok errs) (hne : errs ≠ []) :
    createUser s b = (s, .validation errs) := by
  have : errs.length > 0 := List.length_pos.mpr hne
  simp [createUser, h, this]

/-- A valid body whose email is strictly equal to a stored one is answered with
409 and changes nothing. -/
theorem createUser_of_taken (s : Store) (b : Body) (u : User)
    (h : validateUser b = .ok [])
    (hf : s.users.find? (fun user => strictEq user.email b.email) = some u) :
    createUser s b = (s, .conflict) := by
  simp [createUser, h, hf]

/-- A valid body whose email is not strictly equal to a stored one: either
name and email are strings and the record is appended, or the email is an array
and the handler raises after advancing the counter. -/
theorem createUser_of_free (s : Store) (b : Body)
    (h : validateUser b = .ok [])
    (hf : s.users.find? (fun user => strictEq user.email b.email) = none) :
    (∃ nm em ag, b.name = .str nm ∧ b.email = .str em ∧ parseInt b.age = .ok ag
        ∧ createUser s b =
          ({ users := s.users ++ [⟨s.nextId, trim nm, toLowerCase (trim em), ag⟩],
             nextId := s.nextId + 1 },
           .created ⟨s.nextId, trim nm, toLowerCase (trim em), ag⟩))
      ∨ ((∃ joined, b.email = .arr true joined)
        ∧ createUser s b = ({ s with nextId := s.nextId + 1 }, .serverError)) := by
  obtain ⟨c₁, c₂, c₃, h₁, h₂, h₃, hm⟩ := validateUser_ok b [] h
  obtain ⟨rfl, rfl, rfl⟩ := (messagesFor_eq_nil c₁ c₂ c₃).mp hm.symm
  obtain ⟨nm, hnm, -⟩ := nameRejected_false b.name h₁
  obtain ⟨-, x, hx, -, -⟩ := ageRejected_false b.age h₃
  obtain ⟨ag, hag⟩ := parseInt_of_toNumber b.age x hx
  rcases emailRejected_false b.email h₂ with ⟨em, hem, -⟩ | ⟨joined, hj⟩
  · left
    refine ⟨nm, em, ag, hnm, hem, hag, ?_⟩
    rw [hem] at hf
    simp [createUser, h, hf, hnm, hem, hag, callTrim]
  · right
    refine ⟨⟨joined, hj⟩, ?_⟩
    rw [hj] at hf
    simp [createUser, h, hf, hnm, hj, callTrim]

/-- The five ways `createUser` can go. -/
theorem createUser_cases (s : Store) (b : Body) :
    (∃ err, validateUser b = .error err ∧ createUser s b = (s, .serverError))
      ∨ (∃ errs, validateUser b = .ok errs ∧ errs ≠ []
          ∧ createUser s b = (s, .validation errs))
      ∨ (validateUser b = .ok [] ∧ createUser s b = (s, .conflict))
      ∨ (validateUser b = .ok [] ∧ ∃ r,
          createUser s b = ({ users := s.users ++ [r], nextId := s.nextId + 1 }, .created r))
      ∨ (validateUser b = .ok [] ∧ (∃ joined, b.email = .arr true joined)
          ∧ createUser s b = ({ s with nextId := s.nextId + 1 }, .serverError)) := by
  cases hv : validateUser b with
  | error err => exact Or.inl ⟨err, rfl, createUser_of_throw s b err hv⟩
  | ok errs =>
    by_cases hne : errs = []
    · subst hne
      cases hf : s.users.find? (fun user => strictEq user.email b.email) with
      | some u => exact Or.inr (Or.inr (Or.inl ⟨rfl, createUser_of_taken s b u hv hf⟩))
      | none =>
        rcases createUser_of_free s b hv hf with ⟨nm, em, ag, -, -, -, e⟩ | ⟨hj, e⟩
        · exact Or.inr (Or.inr (Or.inr (Or.inl ⟨rfl, _, e⟩)))
        · exact Or.inr (Or.inr (Or.inr (Or.inr ⟨rfl, hj, e⟩)))
    · exact Or.inr (Or.inl ⟨errs, rfl, hne, createUser_of_errors s b errs hv hne⟩)

/-- C5. Evaluation at the failing input: from the seed state the request
`POST {name: 5, email: "x@y.com", age: 20}` makes `validateUser` raise
(`name.trim` is not a function), and the answer is 500 with the state
unchanged: none of 400, 409 and 201. The sibling invalid name `""` is answered
with 400 and `Name is required`. -/
theorem create_raises_on_number_name :
    validateUser ⟨.num 5 0, .str "x@y.com", .num 20 0⟩ = .error .typeError
      ∧ createUser seed ⟨.num 5 0, .str "x@y.com", .num 20 0⟩ = (seed, .serverError)
      ∧ ¬ ((createUser seed ⟨.num 5 0, .str "x@y.com", .num 20 0⟩).2.status = 400
        ∨ (createUser seed ⟨.num 5 0, .str "x@y.com", .num 20 0⟩).2.status = 409
        ∨ (createUser seed ⟨.num 5 0, .str "x@y.com", .num 20 0⟩).2.status = 201)
      ∧ createUser seed ⟨.str "", .str "x@y.com", .num 20 0⟩
        = (seed, .validation ["Name is required"]) := by
  refine ⟨rfl, by decide, by decide, by decide⟩

/-- The outcomes of `createUser`. For every state and body the answer is one
of 400, 409, 201 and 500, and 500 is excluded on plain bodies (name and email
strings or missing, age a primitive). Validation is decided first: a
non-empty message list gives 400 with that list whatever the stored emails
are, and 409 and 201 occur only when validation returned no message. Whenever
the answer is 400 or 409 the state (list and counter) is as before. -/
theorem create_outcomes (s : Store) (b : Body) :
    ((createUser s b).2.status = 400 ∨ (createUser s b).2.status = 409
        ∨ (createUser s b).2.status = 201 ∨ (createUser s b).2.status = 500)
      ∧ (b.Plain → (createUser s b).2.status ≠ 500)
      ∧ (∀ errs, validateUser b = .ok errs → errs ≠ [] →
          createUser s b = (s, .validation errs))
      ∧ ((createUser s b).2.status = 409 ∨ (createUser s b).2.status = 201 →
          validateUser b = .ok [])
      ∧ ((createUser s b).2.status = 400 ∨ (createUser s b).2.status = 409 →
          (createUser s b).1 = s) := by
  refine ⟨?_, ?_, fun errs h hne => createUser_of_errors s b errs h hne, ?_, ?_⟩
  · rcases createUser_cases s b with ⟨_, _, e⟩ | ⟨_, _, _, e⟩ | ⟨_, e⟩ | ⟨_, _, e⟩ | ⟨_, _, e⟩ <;>
      simp [e, Response.status]
  · intro hp
    rcases createUser_cases s b with ⟨_, hv, _⟩ | ⟨_, _, _, e⟩ | ⟨_, e⟩ | ⟨_, _, e⟩ | ⟨_, ⟨j, hj⟩, _⟩
    · obtain ⟨errs, he⟩ := validateUser_plain b hp
      rw [hv] at he
      exact absurd he (by simp)
    · simp [e, Response.status]
    · simp [e, Response.status]
    · simp [e, Response.status]
    · obtain ⟨-, he, -⟩ := hp
      rw [hj] at he
      simp at he
  · rcases createUser_cases s b with ⟨_, _, e⟩ | ⟨_, _, _, e⟩ | ⟨hv, _⟩ | ⟨hv, _⟩ | ⟨_, _, e⟩
    · simp [e, Response.status]
    · simp [e, Response.status]
    · exact fun _ => hv
    · exact fun _ => hv
    · simp [e, Response.status]
  · rcases createUser_cases s b with ⟨_, _, e⟩ | ⟨_, _, _, e⟩ | ⟨_, e⟩ | ⟨_, _, e⟩ | ⟨_, _, e⟩ <;>
      simp [e, Response.status]

/-- The outcome of `createUser` at the seed state on the body of the test
`should not create user with invalid data`. -/
theorem create_outcomes_example :
    createUser seed ⟨.str "", .str "invalid-email", .num 150 0⟩
      = (seed, .validation ["Name is required", "Valid email is required",
          "Age must be between 1 and 120"]) :=
  (create_outcomes seed ⟨.str "", .str "invalid-email", .num 150 0⟩).2.2.1 _ rfl (by decide)

/-- C3. Evaluation at the failing input: from the seed state, the request
`POST {name: "X", email: "x@y.com", age: "abc"}` passes validation (both
`"abc" < 1` and `"abc" > 120` are false), is answered with 201, and stores a
record whose age is `NaN`; the reachable state so obtained has a live record
violating the field constraints. -/
theorem nan_age_reachable :
    Reachable (createUser seed ⟨.str "X", .str "x@y.com", .str "abc"⟩).1
      ∧ createUser seed ⟨.str "X", .str "x@y.com", .str "abc"⟩
          = ({ users := seed.users ++ [⟨4, "X", "x@y.com", none⟩], nextId := 5 },
             .created ⟨4, "X", "x@y.com", none⟩)
      ∧ ¬ ∀ u ∈ (createUser seed ⟨.str "X", .str "x@y.com", .str "abc"⟩).1.users,
          FieldsValid u := by
  have e : createUser seed ⟨.str "X", .str "x@y.com", .str "abc"⟩
      = ({ users := seed.users ++ [⟨4, "X", "x@y.com", none⟩], nextId := 5 },
         .created ⟨4, "X", "x@y.com", none⟩) := by decide
  refine ⟨⟨[.post ⟨.str "X", .str "x@y.com", .str "abc"⟩], rfl⟩, e, ?_⟩
  intro h
  rw [e] at h
  obtain ⟨-, -, -, -, n, hn, -⟩ := h ⟨4, "X", "x@y.com", none⟩ (by simp)
  simp at hn

/-- What an answer 201 of `createUser` says about the body, the record and the
new state. -/
theorem createUser_created (s : Store) (b : Body) (r : User)
    (h : (createUser s b).2 = .created r) :
    ∃ nm em ag, b.name = .str nm ∧ b.email = .str em ∧ parseInt b.age = .ok ag
      ∧ (∀ m e, b.age = .num m e → ag = some (truncate m e))
      ∧ r = ⟨s.nextId, trim nm, toLowerCase (trim em), ag⟩
      ∧ (createUser s b).1 = { users := s.users ++ [r], nextId := s.nextId + 1 } := by
  cases hv : validateUser b with
  | error err => simp [createUser_of_throw s b err hv] at h
  | ok errs =>
    by_cases hne : errs = []
    · subst hne
      cases hf : s.users.find? (fun user => strictEq user.email b.email) with
      | some u => simp [createUser_of_taken s b u hv hf] at h
      | none =>
        rcases createUser_of_free s b hv hf with ⟨nm, em, ag, hnm, hem, hag, e⟩ | ⟨-, e⟩
        · rw [e] at h
          simp only [Response.created.injEq] at h
          refine ⟨nm, em, ag, hnm, hem, hag, ?_, h.symm, ?_⟩
          · intro m x hm
            rw [hm] at hag
            simpa [parseInt] using hag.symm
          · rw [e, ← h]
        · simp [e] at h
    · simp [createUser_of_errors s b errs hv hne] at h

/-- The body of the test `should trim whitespace from user input`, at the seed
state: the stored and returned record is
`{id: 4, name: "Whitespace User", email: "whitespace@example.com", age: 30}`. -/
theorem createUser_trim_example :
    createUser seed
        ⟨.str "  Whitespace User  ", .str "  WHITESPACE@EXAMPLE.COM  ", .num 30 0⟩
      = ({ users := seed.users ++ [⟨4, "Whitespace User", "whitespace@example.com", some 30⟩],
           nextId := 5 },
         .created ⟨4, "Whitespace User", "whitespace@example.com", some 30⟩) := by
  decide

/-- C6. Evaluation at the failing input: from the seed state the request
`POST {name: "X", email: "x@y.com", age: "1e2"}` passes validation, which
compares the age as the number 100, and is answered with 201; the record
stored and returned has the age 1, what `parseInt` reads of `"1e2"`, not the
integer value 100 of the age. With the age `true` the record is stored with
the age `NaN`. -/
theorem create_stores_parsed_age :
    stringToNumber "1e2" = .fin 100 0
      ∧ validateUser ⟨.str "X", .str "x@y.com", .str "1e2"⟩ = .ok []
      ∧ createUser seed ⟨.str "X", .str "x@y.com", .str "1e2"⟩
        = ({ users := seed.users ++ [⟨4, "X", "x@y.com", some 1⟩], nextId := 5 },
           .created ⟨4, "X", "x@y.com", some 1⟩)
      ∧ createUser seed ⟨.str "X", .str "x@y.com", .bool true⟩
        = ({ users := seed.users ++ [⟨4, "X", "x@y.com", none⟩], nextId := 5 },
           .created ⟨4, "X", "x@y.com", none⟩) := by
  refine ⟨by decide, rfl, by decide, by decide⟩

/-! ## Messages of full validation -/

/-- C7. Evaluation at the failing input: on the candidate `{name: 5}` (no
email, no age) `validateUser` returns no list at all: `userData.name.trim` is
not a function and the call raises before the email and the age are looked at.
So `Valid email is required` is not reported for this candidate without
email, and `POST` answers 500. For the sibling candidate `{name: ""}` the
three messages are returned, in order. -/
theorem validate_raises_on_number_name :
    validateUser ⟨.num 5 0, .undefined, .undefined⟩ = .error .typeError
      ∧ (¬ ∃ errs, validateUser ⟨.num 5 0, .undefined, .undefined⟩ = .ok errs
          ∧ "Valid email is required" ∈ errs)
      ∧ createUser seed ⟨.num 5 0, .undefined, .undefined⟩ = (seed, .serverError)
      ∧ validateUser ⟨.str "", .undefined, .undefined⟩
        = .ok ["Name is required", "Valid email is required",
            "Age must be between 1 and 120"] := by
  have e : validateUser ⟨.num 5 0, .undefined, .undefined⟩ = .error .typeError := rfl
  refine ⟨e, ?_, by decide, rfl⟩
  rintro ⟨errs, h, -⟩
  rw [e] at h
  exact absurd h (by simp)

/-- The messages of `validateUser`. It returns on every plain candidate (name and
email strings or missing, age a primitive), and whenever it returns, its list
is made of one message per failing field, each field decided on its own, in the
order name, email, age: a name fails when it is missing or a string empty
after trimming, an email fails when it is missing or a string without `@`. The
list is empty exactly when the three fields pass, and a candidate without
email has `Valid email is required` in its list. -/
theorem validate_messages (b : Body) :
    (b.Plain → ∃ errs, validateUser b = .ok errs)
      ∧ ∀ errs, validateUser b = .ok errs →
        ∃ c₁ c₂ c₃, nameRejected b.name = .ok c₁ ∧ emailRejected b.email = .ok c₂
          ∧ ageRejected b.age = .ok c₃
          ∧ errs = (if c₁ then ["Name is required"] else [])
              ++ (if c₂ then ["Valid email is required"] else [])
              ++ (if c₃ then ["Age must be between 1 and 120"] else [])
          ∧ (errs = [] ↔ c₁ = false ∧ c₂ = false ∧ c₃ = false)
          ∧ (b.name = .undefined → c₁ = true)
          ∧ (∀ s, b.name = .str s → (c₁ = true ↔ trim s = ""))
          ∧ (b.email = .undefined → c₂ = true ∧ "Valid email is required" ∈ errs)
          ∧ (∀ s, b.email = .str s → (c₂ = true ↔ includesAt s = false)) := by
  refine ⟨validateUser_plain b, ?_⟩
  intro errs h
  obtain ⟨c₁, c₂, c₃, h₁, h₂, h₃, hm⟩ := validateUser_ok b errs h
  refine ⟨c₁, c₂, c₃, h₁, h₂, h₃, hm, ?_, ?_, ?_, ?_, ?_⟩
  · rw [hm]
    exact messagesFor_eq_nil c₁ c₂ c₃
  · intro hn
    rw [hn] at h₁
    simpa [nameRejected, truthy] using h₁.symm
  · intro nm hn
    rw [hn] at h₁
    simp only [nameRejected, truthy, callTrim, Except.map] at h₁
    have hlen : ((trim nm).length == 0) = true ↔ trim nm = "" := by
      rw [beq_iff_eq, String.length, List.length_eq_zero]
      constructor
      · intro hd
        exact String.ext hd
      · intro hd
        rw [hd]
    split at h₁
    · rename_i hemp
      simp only [Except.ok.injEq] at h₁
      subst h₁
      simp only [true_iff]
      have hd : nm.data = [] := by simpa using hemp
      have hnm : nm = "" := String.ext hd
      subst hnm
      rfl
    · simp only [Except.ok.injEq] at h₁
      rw [← h₁]
      exact hlen
  · intro he
    rw [he] at h₂
    have hc : c₂ = true := by simpa [emailRejected, truthy] using h₂.symm
    subst hc
    refine ⟨rfl, ?_⟩
    rw [hm]
    cases c₁ <;> cases c₃ <;> simp [messagesFor]
  · intro em he
    rw [he] at h₂
    simp only [emailRejected, truthy, callIncludes, Except.map] at h₂
    split at h₂
    · rename_i hemp
      simp only [Except.ok.injEq] at h₂
      subst h₂
      simp only [true_iff]
      have hd : em.data = [] := by simpa using hemp
      simp [includesAt, hd]
    · simp only [Except.ok.injEq] at h₂
      rw [← h₂]
      simp

/-- The candidate `("", "bademail", 200)`, invalid in all three fields: the
list is exactly the three messages, in order. -/
theorem validate_messages_example :
    validateUser ⟨.str "", .str "bademail", .num 200 0⟩
        = .ok ["Name is required", "Valid email is required", "Age must be between 1 and 120"]
      ∧ ∃ c₁ c₂ c₃, nameRejected (.str "") = .ok c₁ ∧ emailRejected (.str "bademail") = .ok c₂
          ∧ ageRejected (.num 200 0) = .ok c₃ ∧ c₁ = true ∧ c₂ = true ∧ c₃ = true := by
  refine ⟨rfl, ?_⟩
  obtain ⟨c₁, c₂, c₃, h₁, h₂, h₃, -, -, -, hn, -, he⟩ :=
    (validate_messages ⟨.str "", .str "bademail", .num 200 0⟩).2
      ["Name is required", "Valid email is required", "Age must be between 1 and 120"] rfl
  refine ⟨c₁, c₂, c₃, h₁, h₂, h₃, (hn "" rfl).mpr (by decide), (he "bademail" rfl).mpr (by decide), ?_⟩
  have e : ageRejected (.num 200 0) = .ok true := rfl
  exact Except.ok.inj (h₃.symm.trans e)

/-! ## The age rule -/

/-- A power of ten splits along a smaller exponent. -/
theorem zpow_split (e₁ e : Int) (h : e ≤ e₁) :
    (10 : ℚ) ^ e₁ = (10 : ℚ) ^ (e₁ - e).toNat * (10 : ℚ) ^ e := by
  have h1 : ((e₁ - e).toNat : ℤ) = e₁ - e := Int.toNat_of_nonneg (by omega)
  rw [← zpow_natCast, h1, ← zpow_add₀ (by norm_num)]
  congr 1
  ring

/-- The comparison of finite numbers is the comparison of their values. -/
theorem lt_fin_iff (m₁ e₁ m₂ e₂ : Int) :
    (JSNumber.fin m₁ e₁).lt (.fin m₂ e₂) = true ↔ numValue m₁ e₁ < numValue m₂ e₂ := by
  simp only [JSNumber.lt, decide_eq_true_eq, numValue]
  have pos : (0 : ℚ) < (10 : ℚ) ^ (min e₁ e₂) := zpow_pos (by norm_num) _
  rw [zpow_split e₁ (min e₁ e₂) (min_le_left _ _), zpow_split e₂ (min e₁ e₂) (min_le_right _ _),
    ← mul_assoc, ← mul_assoc, mul_lt_mul_right pos]
  constructor
  · intro h
    exact_mod_cast h
  · intro h
    exact_mod_cast h

/-- The value of an integer literal. -/
theorem numValue_int (k : Int) : numValue k 0 = (k : ℚ) := by
  simp [numValue]

/-- On a JSON number the age condition holds exactly when the value lies
outside the closed interval from 1 to 120. -/
theorem ageRejected_num (m e : Int) :
    ∃ c, ageRejected (.num m e) = .ok c
      ∧ (c = true ↔ ¬ (1 ≤ numValue m e ∧ numValue m e ≤ 120)) := by
  by_cases hm : m = 0
  · subst hm
    refine ⟨true, by simp [ageRejected, truthy], ?_⟩
    simp [numValue]
  · cases h₁ : (JSNumber.fin m e).lt (.fin 1 0) with
    | true =>
      refine ⟨true, by simp [ageRejected, truthy, hm, lessThan, toNumber, Except.map, h₁], ?_⟩
      have := (lt_fin_iff m e 1 0).mp h₁
      rw [numValue_int] at this
      simp only [true_iff, not_and, not_le]
      intro h1
      push_cast at this
      linarith
    | false =>
      refine ⟨(JSNumber.fin 120 0).lt (.fin m e),
        by simp [ageRejected, truthy, hm, lessThan, greaterThan, toNumber, Except.map, h₁], ?_⟩
      have hge : ¬ numValue m e < 1 := by
        intro hlt
        have := (lt_fin_iff m e 1 0).mpr (by rw [numValue_int]; exact_mod_cast hlt)
        rw [h₁] at this
        exact absurd this (by simp)
      rw [lt_fin_iff, numValue_int]
      push_cast
      constructor
      · intro h ⟨_, h2⟩
        linarith
      · intro h
        by_contra hle
        exact h ⟨not_lt.mp hge, not_lt.mp hle⟩

/-- The age message is in the list exactly when the age condition held. -/
theorem mem_messagesFor_age (c₁ c₂ c₃ : Bool) :
    "Age must be between 1 and 120" ∈ messagesFor c₁ c₂ c₃ ↔ c₃ = true := by
  cases c₁ <;> cases c₂ <;> cases c₃ <;> simp [messagesFor]

/-- C8, counterexample. The candidate `("a", "a@b.c", 1.5)` has a non-integer
age and `validateUser` returns the empty list for it: the age is not
reported. -/
theorem fractional_age_accepted :
    validateUser ⟨.str "a", .str "a@b.c", .num 15 (-1)⟩ = .ok []
      ∧ ∀ n : Int, numValue 15 (-1) ≠ (n : ℚ) := by
  refine ⟨rfl, ?_⟩
  intro n hn
  have h2 : (3 : ℚ) = 2 * (n : ℚ) := by
    rw [← hn]
    norm_num [numValue]
  have h3 : (3 : Int) = 2 * n := by exact_mod_cast h2
  omega

/-- C8, amended. Whenever `validateUser` returns, `Age must be between 1 and
120` is in its list exactly when the age condition holds; it is there when the
age is absent; for an age that is a JSON number it is there exactly when the
value lies outside the closed interval from 1 to 120 (so a non-integer inside
the interval is accepted), and it is not there for any integer from 1 to
120. -/
theorem age_rule (b : Body) (errs : List String) (h : validateUser b = .ok errs) :
    ("Age must be between 1 and 120" ∈ errs ↔ ageRejected b.age = .ok true)
      ∧ (b.age = .undefined → "Age must be between 1 and 120" ∈ errs)
      ∧ (∀ m e, b.age = .num m e →
          ("Age must be between 1 and 120" ∈ errs
            ↔ ¬ (1 ≤ numValue m e ∧ numValue m e ≤ 120)))
      ∧ (∀ n : Int, b.age = .num n 0 → 1 ≤ n → n ≤ 120 →
          "Age must be between 1 and 120" ∉ errs) := by
  obtain ⟨c₁, c₂, c₃, -, -, h₃, hm⟩ := validateUser_ok b errs h
  have key : "Age must be between 1 and 120" ∈ errs ↔ c₃ = true := by
    rw [hm]
    exact mem_messagesFor_age c₁ c₂ c₃
  have hnum : ∀ m e, b.age = .num m e →
      ("Age must be between 1 and 120" ∈ errs
        ↔ ¬ (1 ≤ numValue m e ∧ numValue m e ≤ 120)) := by
    intro m e hme
    obtain ⟨c, hc, hiff⟩ := ageRejected_num m e
    rw [hme, hc] at h₃
    have : c = c₃ := Except.ok.inj h₃
    rw [key, ← this]
    exact hiff
  refine ⟨?_, ?_, hnum, ?_⟩
  · rw [key, h₃]
    simp
  · intro hu
    rw [hu] at h₃
    rw [key]
    simpa [ageRejected, truthy] using h₃.symm
  · intro n hn h1 h120 hmem
    have := (hnum n 0 hn).mp hmem
    apply this
    rw [numValue_int]
    exact ⟨by exact_mod_cast h1, by exact_mod_cast h120⟩

/-- C8, amended, on the candidate `("a", "a@b.c", 121)`: the age is
reported, its value lying above 120. -/
theorem age_rule_witness :
    validateUser ⟨.str "a", .str "a@b.c", .num 121 0⟩ = .ok ["Age must be between 1 and 120"]
      ∧ ¬ (1 ≤ numValue 121 0 ∧ numValue 121 0 ≤ 120) :=
  ⟨rfl, ((age_rule ⟨.str "a", .str "a@b.c", .num 121 0⟩ ["Age must be between 1 and 120"]
    rfl).2.2.1 121 0 rfl).mp (by simp)⟩

/-! ## Reading back what was written -/

/-- Two records matching route parameters that parse alike have the same id. -/
theorem matchesId_id_eq (p q : String) (u v : User) (hq : parseIntString q = parseIntString p)
    (hu : matchesId p u = true) (hv : matchesId q v = true) : u.id = v.id := by
  simp only [matchesId, decide_eq_true_eq] at hu hv
  rw [hq, hu] at hv
  exact_mod_cast Option.some.inj hv

/-- C9. In every reachable state, if `createUser` answers 201 with a record
`r`, a following `GET` for a route parameter that reads as `r.id` is answered
with 200 and the record `r` itself: no older record carries that id. -/
theorem create_then_get (s : Store) (b : Body) (r : User) (p : String)
    (hs : Reachable s) (hc : (createUser s b).2 = .created r)
    (hp : parseIntString p = some (r.id : Int)) :
    getUser (createUser s b).1 p = ((createUser s b).1, .found r)
      ∧ (getUser (createUser s b).1 p).2.status = 200 := by
  obtain ⟨nm, em, ag, -, -, -, -, hr, hst⟩ := createUser_created s b r hc
  obtain ⟨-, hb⟩ := idInv_reachable s hs
  have hid : r.id = s.nextId := by rw [hr]
  have hold : s.users.find? (matchesId p) = none := by
    rw [List.find?_eq_none]
    intro u hu hm
    have hlt : u.id < s.nextId := hb u.id (List.mem_map_of_mem User.id hu)
    simp only [matchesId, decide_eq_true_eq] at hm
    rw [hp] at hm
    have : r.id = u.id := by exact_mod_cast Option.some.inj hm
    omega
  have hnew : matchesId p r = true := by
    simp [matchesId, hp]
  have hget : getUser (createUser s b).1 p = ((createUser s b).1, .found r) := by
    rw [hst]
    simp [getUser, findUserById, List.find?_append, hold, List.find?, hnew]
  exact ⟨hget, by rw [hget]; rfl⟩

/-- C9, from the seed state: the record created for `("A", "a@b.c", 20)` gets
id 4 and `GET /api/users/4` returns it. -/
theorem create_then_get_witness :
    (getUser (createUser seed ⟨.str "A", .str "a@b.c", .num 20 0⟩).1 "4").2
      = .found ⟨4, "A", "a@b.c", some 20⟩ :=
  congrArg Prod.snd
    (create_then_get seed ⟨.str "A", .str "a@b.c", .num 20 0⟩ ⟨4, "A", "a@b.c", some 20⟩ "4"
      ⟨[], rfl⟩ (by decide) (by decide)).1

/-- In a list with strictly increasing ids, erasing the first record matching
a route parameter leaves no record matching a parameter that parses alike. -/
theorem findIdx?_eraseIdx (p q : String) (hq : parseIntString q = parseIntString p) :
    ∀ (l : List User) (i : Nat), (l.map User.id).Pairwise (fun a b => a < b) →
      l.findIdx? (matchesId p) = some i →
      (∃ u, l[i]? = some u ∧ matchesId p u = true)
        ∧ ∀ v ∈ l.eraseIdx i, matchesId q v = false := by
  intro l
  induction l with
  | nil => intro i _ h; simp at h
  | cons a t ih =>
    intro i hp h
    rw [List.map_cons, List.pairwise_cons] at hp
    obtain ⟨ha, ht⟩ := hp
    rw [List.findIdx?_cons] at h
    split at h
    · rename_i hm
      simp only [Nat.zero_add, Option.some.injEq] at h
      subst h
      refine ⟨⟨a, by simp, hm⟩, ?_⟩
      intro v hv
      simp only [List.eraseIdx_cons_zero] at hv
      by_contra hne
      have hvm : matchesId q v = true := by simpa using hne
      have heq := matchesId_id_eq p q a v hq hm hvm
      have hlt := ha v.id (List.mem_map_of_mem User.id hv)
      omega
    · rename_i hm
      rw [List.findIdx?_succ] at h
      simp only [Nat.zero_add, Option.map_eq_some'] at h
      obtain ⟨j, hj, rfl⟩ := h
      obtain ⟨⟨u, hu, hum⟩, hrest⟩ := ih j ht hj
      refine ⟨⟨u, by simpa using hu, hum⟩, ?_⟩
      intro v hv
      simp only [List.eraseIdx_cons_succ, List.mem_cons] at hv
      rcases hv with rfl | hv
      · by_contra hne
        have hvm : matchesId q v = true := by simpa using hne
        apply hm
        simp only [matchesId, decide_eq_true_eq] at hvm ⊢
        rw [← hq]
        exact hvm
      · exact hrest v hv

/-- C10. In every reachable state, if `DELETE` for a route parameter is
answered with 200, then in the resulting state no live record has the id the
parameter reads as, a `GET` for it (or for any parameter reading as the same
id) is answered with 404, and so is a second `DELETE`. -/
theorem delete_then_get (s : Store) (p q : String) (hs : Reachable s)
    (hd : (deleteUser s p).2.status = 200) (hq : parseIntString q = parseIntString p) :
    (∀ v ∈ (deleteUser s p).1.users, matchesId q v = false)
      ∧ getUser (deleteUser s p).1 q = ((deleteUser s p).1, .notFound)
      ∧ deleteUser (deleteUser s p).1 q = ((deleteUser s p).1, .notFound)
      ∧ Response.notFound.status = 404 := by
  obtain ⟨hp, -⟩ := idInv_reachable s hs
  cases hf : s.users.findIdx? (matchesId p) with
  | none => simp [deleteUser, hf, Response.status] at hd
  | some i =>
    obtain ⟨-, hrest⟩ := findIdx?_eraseIdx p q hq s.users i hp hf
    have hst : (deleteUser s p).1 = { s with users := s.users.eraseIdx i } := by
      simp [deleteUser, hf]
    rw [hst]
    refine ⟨hrest, ?_, ?_, rfl⟩
    · have : (s.users.eraseIdx i).find? (matchesId q) = none := by
        rw [List.find?_eq_none]
        intro v hv
        simp [hrest v hv]
      simp [getUser, findUserById, this]
    · have : (s.users.eraseIdx i).findIdx? (matchesId q) = none := by
        rw [List.findIdx?_eq_none_iff]
        intro v hv
        exact hrest v hv
      simp [deleteUser, this]

/-- C10, from the seed state: after `DELETE /api/users/2`, both
`GET /api/users/2` and a second `DELETE /api/users/2` are answered 404. -/
theorem delete_then_get_witness :
    (deleteUser seed "2").2.status = 200
      ∧ (getUser (deleteUser seed "2").1 "2").2 = .notFound
      ∧ (deleteUser (deleteUser seed "2").1 "2").2 = .notFound :=
  ⟨by decide,
   congrArg Prod.snd (delete_then_get seed "2" "2" ⟨[], rfl⟩ (by decide) rfl).2.1,
   congrArg Prod.snd (delete_then_get seed "2" "2" ⟨[], rfl⟩ (by decide) rfl).2.2.1⟩

/-! ## The record an update works on -/

/-- The record `findUserById` returns is the first match, at some position. -/
theorem firstMatch_of_find (users : List User) (id : String) (user : User)
    (h : findUserById users id = some user) : ∃ k, FirstMatch users id k user := by
  induction users with
  | nil => simp [findUserById] at h
  | cons a t ih =>
    simp only [findUserById, List.find?_cons] at h
    cases hm : matchesId id a with
    | true =>
      simp only [hm, Option.some.injEq] at h
      subst h
      exact ⟨0, by simp, hm, fun j v hj => absurd hj (Nat.not_lt_zero j)⟩
    | false =>
      simp only [hm] at h
      obtain ⟨k, hk, hu, hlt⟩ := ih h
      refine ⟨k + 1, by simpa using hk, hu, ?_⟩
      intro j v hj hv
      cases j with
      | zero =>
        simp only [List.getElem?_cons_zero, Option.some.injEq] at hv
        rw [← hv]
        exact hm
      | succ j =>
        simp only [List.getElem?_cons_succ] at hv
        exact hlt j v (Nat.lt_of_succ_lt_succ hj) hv

/-- The first match is what `findUserById` returns. -/
theorem find_of_firstMatch (users : List User) (id : String) (k : Nat) (user : User)
    (h : FirstMatch users id k user) : findUserById users id = some user := by
  induction users generalizing k with
  | nil =>
    obtain ⟨hk, -, -⟩ := h
    simp at hk
  | cons a t ih =>
    obtain ⟨hk, hu, hlt⟩ := h
    cases k with
    | zero =>
      simp only [List.getElem?_cons_zero, Option.some.injEq] at hk
      subst hk
      simp [findUserById, List.find?_cons, hu]
    | succ k =>
      have ha : matchesId id a = false := hlt 0 a (Nat.succ_pos k) (by simp)
      simp only [List.getElem?_cons_succ] at hk
      have := ih k ⟨hk, hu, fun j v hj hv => hlt (j + 1) v (Nat.succ_lt_succ hj) (by simpa using hv)⟩
      simpa [findUserById, List.find?_cons, ha] using this

/-- An assignment through the found record replaces position `k`. -/
theorem assignFound_eq_set (users : List User) (id : String) (k : Nat) (user : User)
    (f : User → User) (h : FirstMatch users id k user) :
    assignFound users id f = users.set k (f user) := by
  induction users generalizing k with
  | nil =>
    obtain ⟨hk, -, -⟩ := h
    simp at hk
  | cons a t ih =>
    obtain ⟨hk, hu, hlt⟩ := h
    cases k with
    | zero =>
      simp only [List.getElem?_cons_zero, Option.some.injEq] at hk
      subst hk
      simp [assignFound, hu]
    | succ k =>
      have ha : matchesId id a = false := hlt 0 a (Nat.succ_pos k) (by simp)
      simp only [List.getElem?_cons_succ] at hk
      have := ih k ⟨hk, hu, fun j v hj hv => hlt (j + 1) v (Nat.succ_lt_succ hj) (by simpa using hv)⟩
      simp [assignFound, ha, this]

/-- Replacing the first match by a record with the same id keeps it the first
match. -/
theorem firstMatch_set (users : List User) (id : String) (k : Nat) (user r : User)
    (h : FirstMatch users id k user) (hid : r.id = user.id) :
    FirstMatch (users.set k r) id k r := by
  obtain ⟨hk, hu, hlt⟩ := h
  have hklt : k < users.length := by
    by_contra hge
    rw [List.getElem?_eq_none (Nat.le_of_not_lt hge)] at hk
    exact absurd hk (by simp)
  refine ⟨?_, ?_, ?_⟩
  · simp [List.getElem?_set, hklt]
  · simpa [matchesId, hid] using hu
  · intro j v hj hv
    rw [List.getElem?_set_ne (Nat.ne_of_gt hj)] at hv
    exact hlt j v hj hv

/-- Writing a record over itself changes nothing. -/
theorem set_self (users : List User) (k : Nat) (user : User) (h : users[k]? = some user) :
    users.set k user = users := by
  apply List.ext_getElem?
  intro i
  by_cases hik : k = i
  · subst hik
    have hklt : k < users.length := by
      by_contra hge
      rw [List.getElem?_eq_none (Nat.le_of_not_lt hge)] at h
      exact absurd h (by simp)
    simp [List.getElem?_set, hklt, h]
  · rw [List.getElem?_set_ne hik]

/-! ## The counter -/

/-- No request makes the counter smaller. -/
theorem nextId_le_handle (s : Store) (r : Request) : s.nextId ≤ (handle s r).1.nextId := by
  cases r with
  | list => exact Nat.le_refl _
  | get id =>
    simp only [handle, getUser]
    split <;> exact Nat.le_refl _
  | post body =>
    simp only [handle]
    rcases createUser_state s body with e | e | ⟨u, -, e⟩ <;> rw [e] <;> simp
  | put id body =>
    simp only [handle]
    rw [(replaceUser_ids s id body).1]
  | patch id body =>
    simp only [handle]
    rw [(patchUser_ids s id body).1]
  | delete id =>
    simp only [handle]
    rw [(deleteUser_state s id).1]

/-- Along a sequence of requests the counter never decreases. -/
theorem nextId_le_run (rs : List Request) (s : Store) : s.nextId ≤ (run s rs).nextId := by
  induction rs generalizing s with
  | nil => exact Nat.le_refl _
  | cons r rs ih => exact Nat.le_trans (nextId_le_handle s r) (ih (handle s r).1)

/-- A successful creation returns an id above the id returned by any earlier
successful creation, whatever requests were served in between. -/
theorem created_ids_increase (s₀ : Store) (b₀ b : Body) (r₀ r : User) (rs : List Request)
    (h₀ : (createUser s₀ b₀).2 = .created r₀)
    (h : (createUser (run (createUser s₀ b₀).1 rs) b).2 = .created r) : r₀.id < r.id := by
  obtain ⟨_, _, _, -, -, -, -, hr₀, hst⟩ := createUser_created s₀ b₀ r₀ h₀
  obtain ⟨_, _, _, -, -, -, -, hr, -⟩ := createUser_created _ b r h
  have hmono := nextId_le_run rs (createUser s₀ b₀).1
  have e₀ : r₀.id = s₀.nextId := by rw [hr₀]
  have e : r.id = (run (createUser s₀ b₀).1 rs).nextId := by rw [hr]
  have e₁ : (createUser s₀ b₀).1.nextId = s₀.nextId + 1 := by rw [hst]
  omega

/-- C11. Evaluation at the failing input: from the seed state, the request
`POST {name: "B", email: ["@"], age: 20}` fails (it is answered with 500 and
inserts nothing) and yet leaves the counter at 5; the next successful creation
gets id 5, id 4 having been consumed by the failed one. -/
theorem failed_create_advances_counter :
    createUser seed ⟨.str "B", .arr true (some "@"), .num 20 0⟩
        = ({ users := seed.users, nextId := 5 }, .serverError)
      ∧ seed.nextId = 4
      ∧ ((run seed [.post ⟨.str "B", .arr true (some "@"), .num 20 0⟩,
            .post ⟨.str "C", .str "c@d.e", .num 20 0⟩]).users.map User.id) = [1, 2, 3, 5] := by
  refine ⟨by decide, rfl, by decide⟩

/-! ## Replacement: failures -/

/-- A non-empty list of messages is answered with 400 and changes nothing. -/
theorem replaceUser_of_errors (s : Store) (id : String) (b : Body) (user : User)
    (errs : List String) (h : findUserById s.users id = some user)
    (hv : validateUser b = .ok errs) (hne : errs ≠ []) :
    replaceUser s id b = (s, .validation errs) := by
  have : errs.length > 0 := List.length_pos.mpr hne
  simp [replaceUser, h, hv, this]

/-- An exception in validation is answered with 500 and changes nothing. -/
theorem replaceUser_of_throw (s : Store) (id : String) (b : Body) (user : User)
    (err : JSError) (h : findUserById s.users id = some user)
    (hv : validateUser b = .error err) :
    replaceUser s id b = (s, .serverError) := by
  simp [replaceUser, h, hv]

/-- A valid body whose email is strictly equal to the stored email of another
record is answered with 409 and changes nothing. -/
theorem replaceUser_of_taken (s : Store) (id : String) (b : Body) (user u : User)
    (h : findUserById s.users id = some user) (hv : validateUser b = .ok [])
    (hf : s.users.find? (fun u => strictEq u.email b.email && u.id != user.id) = some u) :
    replaceUser s id b = (s, .conflict) := by
  simp [replaceUser, h, hv, hf]

/-- Answers 400 and 409 of `replaceUser` come with the state untouched. -/
theorem replaceUser_failure_state (s : Store) (id : String) (b : Body)
    (h : (replaceUser s id b).2.status = 400 ∨ (replaceUser s id b).2.status = 409) :
    (replaceUser s id b).1 = s := by
  unfold replaceUser at h ⊢
  repeat' split
  all_goals simp_all [Response.status]

/-- On the live id 1 of the seed state the inputs `(5, "bad", -1)` do not pass
full validation, and `replaceUser` does not answer 400: `name.trim` is not a
function and the answer is 500. -/
theorem replace_raises_on_number_name :
    validateUser ⟨.num 5 0, .str "bad", .num (-1) 0⟩ ≠ .ok []
      ∧ ¬ (replaceUser seed "1" ⟨.num 5 0, .str "bad", .num (-1) 0⟩).2.status = 400 := by
  refine ⟨?_, by decide⟩
  have e : validateUser ⟨.num 5 0, .str "bad", .num (-1) 0⟩ = .error .typeError := rfl
  rw [e]
  simp

/-- The failures of `replaceUser`. For every state and live id, if full validation
returns a non-empty message list `replaceUser` answers 400 with that list (and 500 if
validation raises), and if validation returns no message but the email is
strictly equal to the stored email of a different live record it answers 409;
whenever the answer is 400 or 409 the whole state, the record found included,
is exactly as before. -/
theorem replace_failure_atomic (s : Store) (id : String) (b : Body) (user : User)
    (h : findUserById s.users id = some user) :
    (∀ errs, validateUser b = .ok errs → errs ≠ [] →
        replaceUser s id b = (s, .validation errs))
      ∧ (∀ err, validateUser b = .error err → replaceUser s id b = (s, .serverError))
      ∧ (validateUser b = .ok [] →
          (∃ u ∈ s.users, strictEq u.email b.email = true ∧ u.id ≠ user.id) →
          replaceUser s id b = (s, .conflict))
      ∧ ((replaceUser s id b).2.status = 400 ∨ (replaceUser s id b).2.status = 409 →
          (replaceUser s id b).1 = s) := by
  refine ⟨fun errs hv hne => replaceUser_of_errors s id b user errs h hv hne,
    fun err hv => replaceUser_of_throw s id b user err h hv, ?_,
    replaceUser_failure_state s id b⟩
  intro hv ⟨u, hu, he, hid⟩
  cases hf : s.users.find? (fun u => strictEq u.email b.email && u.id != user.id) with
  | some w => exact replaceUser_of_taken s id b user w h hv hf
  | none =>
    rw [List.find?_eq_none] at hf
    have := hf u hu
    simp [he, hid] at this

/-- The example `replace(1, "", "bad", -1)` at the seed state: 400 with the
three messages, and the seed state unchanged. -/
theorem replace_failure_atomic_example :
    replaceUser seed "1" ⟨.str "", .str "bad", .num (-1) 0⟩
      = (seed, .validation ["Name is required", "Valid email is required",
          "Age must be between 1 and 120"]) :=
  (replace_failure_atomic seed "1" ⟨.str "", .str "bad", .num (-1) 0⟩
    ⟨1, "John Doe", "john@example.com", some 30⟩ (by decide)).1 _ rfl (by decide)

/-- C12. Evaluation at the failing input: at the seed state the inputs
`("J", "JANE@EXAMPLE.COM", 30)` pass full validation and their normalized email
is the one of record 2, a live record other than record 1; yet
`PUT /api/users/1` is not answered with 409 but with 200, and record 1 is
overwritten and now has the email `jane@example.com` of record 2. -/
theorem replace_accepts_colliding_email :
    validateUser ⟨.str "J", .str "JANE@EXAMPLE.COM", .num 30 0⟩ = .ok []
      ∧ (∃ u ∈ seed.users, u.id ≠ 1
          ∧ normalizeEmail u.email = normalizeEmail "JANE@EXAMPLE.COM")
      ∧ replaceUser seed "1" ⟨.str "J", .str "JANE@EXAMPLE.COM", .num 30 0⟩
        = ({ users :=
              [ ⟨1, "J", "jane@example.com", some 30⟩,
                ⟨2, "Jane Smith", "jane@example.com", some 25⟩,
                ⟨3, "Bob Johnson", "bob@example.com", some 35⟩ ],
             nextId := 4 }, .updated ⟨1, "J", "jane@example.com", some 30⟩) := by
  refine ⟨rfl, ⟨⟨2, "Jane Smith", "jane@example.com", some 25⟩, by decide, by decide,
    by decide⟩, by decide⟩

/-- C13. Evaluation at the failing input: at the seed state the inputs
`("N", ["@"], 5)` pass full validation and no record has that email, yet
`PUT /api/users/1` is answered with 500, and record 1 is left with the new name
and its old email and age. -/
theorem replace_half_applied :
    validateUser ⟨.str "N", .arr true (some "@"), .num 5 0⟩ = .ok []
      ∧ seed.users.find? (fun u => strictEq u.email (.arr true (some "@")) && u.id != 1) = none
      ∧ replaceUser seed "1" ⟨.str "N", .arr true (some "@"), .num 5 0⟩
        = ({ users :=
              [ ⟨1, "N", "john@example.com", some 30⟩,
                ⟨2, "Jane Smith", "jane@example.com", some 25⟩,
                ⟨3, "Bob Johnson", "bob@example.com", some 35⟩ ],
             nextId := 4 }, .serverError) := by
  refine ⟨rfl, by decide, by decide⟩

/-- C15. Evaluation at the failing input: at the seed state the normalized
email of `"JOHN@EXAMPLE.COM"` equals that of record 1, yet
`PATCH /api/users/2 {email: "JOHN@EXAMPLE.COM"}` is answered with 200 and gives
record 2 the email `john@example.com` of record 1. -/
theorem patch_accepts_colliding_email :
    normalizeEmail "JOHN@EXAMPLE.COM" = normalizeEmail "john@example.com"
      ∧ patchUser seed "2" ⟨.undefined, .str "JOHN@EXAMPLE.COM", .undefined⟩
        = ({ users :=
              [ ⟨1, "John Doe", "john@example.com", some 30⟩,
                ⟨2, "Jane Smith", "john@example.com", some 25⟩,
                ⟨3, "Bob Johnson", "bob@example.com", some 35⟩ ],
             nextId := 4 }, .updated ⟨2, "Jane Smith", "john@example.com", some 25⟩) := by
  refine ⟨by decide, by decide⟩

/-! ## Validation of a partial update -/

/-- The validation of the `PATCH` handler as its three conditions in sequence. -/
theorem validatePatch_eq (b : Body) :
    validatePatch b =
      (patchNameRejected b.name).bind (fun c₁ =>
        (patchEmailRejected b.email).bind (fun c₂ =>
          (patchAgeRejected b.age).bind (fun c₃ => .ok (patchMessagesFor c₁ c₂ c₃)))) := by
  unfold validatePatch patchNameRejected patchEmailRejected patchAgeRejected
  cases isDefined b.name <;> cases isDefined b.email <;> cases isDefined b.age <;>
    cases nameRejected b.name <;> cases emailRejected b.email <;>
    cases lessThan b.age 1 <;> cases greaterThan b.age 120 <;>
    (try (rename_i c₁ c₂ c₃ c₄; cases c₁ <;> cases c₂ <;> cases c₃ <;> cases c₄)) <;> rfl

/-- When the `PATCH` validation returns, each condition was evaluated. -/
theorem validatePatch_ok (b : Body) (errs : List String) (h : validatePatch b = .ok errs) :
    ∃ c₁ c₂ c₃, patchNameRejected b.name = .ok c₁ ∧ patchEmailRejected b.email = .ok c₂
      ∧ patchAgeRejected b.age = .ok c₃ ∧ errs = patchMessagesFor c₁ c₂ c₃ := by
  rw [validatePatch_eq] at h
  cases h₁ : patchNameRejected b.name with
  | error err => simp [h₁, Except.bind] at h
  | ok c₁ =>
    cases h₂ : patchEmailRejected b.email with
    | error err => simp [h₁, h₂, Except.bind] at h
    | ok c₂ =>
      cases h₃ : patchAgeRejected b.age with
      | error err => simp [h₁, h₂, h₃, Except.bind] at h
      | ok c₃ =>
        simp only [h₁, h₂, h₃, Except.bind, Except.ok.injEq] at h
        exact ⟨c₁, c₂, c₃, rfl, rfl, rfl, h.symm⟩

/-- No message of the `PATCH` validation means no condition held. -/
theorem patchMessagesFor_eq_nil (c₁ c₂ c₃ : Bool) :
    patchMessagesFor c₁ c₂ c₃ = [] ↔ c₁ = false ∧ c₂ = false ∧ c₃ = false := by
  cases c₁ <;> cases c₂ <;> cases c₃ <;> simp [patchMessagesFor]

/-- A string name is rejected exactly when it is empty after trimming. -/
theorem nameRejected_str (nm : String) :
    ∃ c, nameRejected (.str nm) = .ok c ∧ (c = true ↔ trim nm = "") := by
  simp only [nameRejected, truthy, callTrim, Except.map]
  split
  · rename_i hemp
    refine ⟨true, rfl, ?_⟩
    have hd : nm.data = [] := by simpa using hemp
    have hnm : nm = "" := String.ext hd
    subst hnm
    simp only [true_iff]
    rfl
  · refine ⟨_, rfl, ?_⟩
    rw [beq_iff_eq, String.length, List.length_eq_zero]
    constructor
    · intro hd
      exact String.ext hd
    · intro hd
      rw [hd]

/-- A string email is rejected exactly when it does not contain `@`. -/
theorem emailRejected_str (em : String) :
    ∃ c, emailRejected (.str em) = .ok c ∧ (c = true ↔ includesAt em = false) := by
  simp only [emailRejected, truthy, callIncludes, Except.map]
  split
  · rename_i hemp
    refine ⟨true, rfl, ?_⟩
    have hd : em.data = [] := by simpa using hemp
    simp [includesAt, hd]
  · exact ⟨_, rfl, by simp⟩

/-- On a JSON number the age condition of the `PATCH` handler holds exactly
when the value lies outside the closed interval from 1 to 120. -/
theorem patchAgeRejected_num (m e : Int) :
    ∃ c, patchAgeRejected (.num m e) = .ok c
      ∧ (c = true ↔ ¬ (1 ≤ numValue m e ∧ numValue m e ≤ 120)) := by
  cases h₁ : (JSNumber.fin m e).lt (.fin 1 0) with
  | true =>
    refine ⟨true, by simp [patchAgeRejected, isDefined, lessThan, toNumber, Except.map, h₁], ?_⟩
    have := (lt_fin_iff m e 1 0).mp h₁
    rw [numValue_int] at this
    simp only [true_iff, not_and, not_le]
    intro h1
    push_cast at this
    linarith
  | false =>
    refine ⟨(JSNumber.fin 120 0).lt (.fin m e),
      by simp [patchAgeRejected, isDefined, lessThan, greaterThan, toNumber, Except.map, h₁], ?_⟩
    have hge : ¬ numValue m e < 1 := by
      intro hlt
      have := (lt_fin_iff m e 1 0).mpr (by rw [numValue_int]; exact_mod_cast hlt)
      rw [h₁] at this
      exact absurd this (by simp)
    rw [lt_fin_iff, numValue_int]
    push_cast
    constructor
    · intro h ⟨_, h2⟩
      linarith
    · intro h
      by_contra hle
      exact h ⟨not_lt.mp hge, not_lt.mp hle⟩

/-- A non-empty message list of the `PATCH` validation is answered with 400
and changes nothing. -/
theorem patchUser_of_errors (s : Store) (id : String) (b : Body) (user : User)
    (errs : List String) (h : findUserById s.users id = some user)
    (hv : validatePatch b = .ok errs) (hne : errs ≠ []) :
    patchUser s id b = (s, .validation errs) := by
  have : errs.length > 0 := List.length_pos.mpr hne
  simp [patchUser, h, hv, this]

/-- The answer 400 of `patchUser` is given exactly on a non-empty message
list. -/
theorem patchUser_400_iff (s : Store) (id : String) (b : Body) (user : User)
    (h : findUserById s.users id = some user) :
    (patchUser s id b).2.status = 400 ↔ ∃ errs, validatePatch b = .ok errs ∧ errs ≠ [] := by
  constructor
  · intro hst
    cases hv : validatePatch b with
    | error err => simp [patchUser, h, hv, Response.status] at hst
    | ok errs =>
      by_cases hne : errs = []
      · exfalso
        subst hne
        simp only [patchUser, h, hv, List.length_nil, gt_iff_lt, Nat.lt_irrefl,
          if_false] at hst
        revert hst
        repeat' split
        all_goals simp [Response.status]
      · exact ⟨errs, rfl, hne⟩
  · rintro ⟨errs, hv, hne⟩
    rw [patchUser_of_errors s id b user errs h hv hne]
    rfl

/-- The three messages of the `PATCH` validation are told apart. -/
theorem mem_patchMessagesFor (c₁ c₂ c₃ : Bool) :
    ("Name cannot be empty" ∈ patchMessagesFor c₁ c₂ c₃ ↔ c₁ = true)
      ∧ ("Valid email is required" ∈ patchMessagesFor c₁ c₂ c₃ ↔ c₂ = true)
      ∧ ("Age must be between 1 and 120" ∈ patchMessagesFor c₁ c₂ c₃ ↔ c₃ = true) := by
  cases c₁ <;> cases c₂ <;> cases c₃ <;> simp [patchMessagesFor]

/-- C16, counterexample. At the seed state `PATCH /api/users/1 {age: 1.5}`
carries an age that is not an integer, and it is not answered with 400: the
answer is 200 and the age 1 is stored. -/
theorem patch_fractional_age_accepted :
    (∀ n : Int, numValue 15 (-1) ≠ (n : ℚ))
      ∧ patchUser seed "1" ⟨.undefined, .undefined, .num 15 (-1)⟩
        = ({ users :=
              [ ⟨1, "John Doe", "john@example.com", some 1⟩,
                ⟨2, "Jane Smith", "jane@example.com", some 25⟩,
                ⟨3, "Bob Johnson", "bob@example.com", some 35⟩ ],
             nextId := 4 }, .updated ⟨1, "John Doe", "john@example.com", some 1⟩) := by
  refine ⟨?_, by decide⟩
  intro n hn
  have h2 : (3 : ℚ) = 2 * (n : ℚ) := by
    rw [← hn]
    norm_num [numValue]
  have h3 : (3 : Int) = 2 * n := by exact_mod_cast h2
  omega

/-- C16, amended. For every state and live id, `patchUser` answers 400 exactly
when its validation returns a non-empty message list, and then the list is
returned and the state is unmodified. Whenever the validation returns, the
list holds, in the order name, email, age, the messages
`Name cannot be empty`, `Valid email is required` and
`Age must be between 1 and 120` of exactly the conditions that hold; an absent
field never holds its condition, a string name holds it exactly when it is
empty after trimming, a string email exactly when it has no `@`, and a JSON
number age exactly when its value lies outside the closed interval from 1 to
120. -/
theorem patch_validation (s : Store) (id : String) (b : Body) (user : User)
    (h : findUserById s.users id = some user) :
    ((patchUser s id b).2.status = 400 ↔ ∃ errs, validatePatch b = .ok errs ∧ errs ≠ [])
      ∧ (∀ errs, validatePatch b = .ok errs → errs ≠ [] →
          patchUser s id b = (s, .validation errs))
      ∧ ∀ errs, validatePatch b = .ok errs →
        ∃ c₁ c₂ c₃, patchNameRejected b.name = .ok c₁ ∧ patchEmailRejected b.email = .ok c₂
          ∧ patchAgeRejected b.age = .ok c₃
          ∧ errs = (if c₁ then ["Name cannot be empty"] else [])
              ++ (if c₂ then ["Valid email is required"] else [])
              ++ (if c₃ then ["Age must be between 1 and 120"] else [])
          ∧ (b.name = .undefined → c₁ = false)
          ∧ (∀ nm, b.name = .str nm → (c₁ = true ↔ trim nm = ""))
          ∧ (b.email = .undefined → c₂ = false)
          ∧ (∀ em, b.email = .str em → (c₂ = true ↔ includesAt em = false))
          ∧ (b.age = .undefined → c₃ = false)
          ∧ (∀ m e, b.age = .num m e →
              (c₃ = true ↔ ¬ (1 ≤ numValue m e ∧ numValue m e ≤ 120))) := by
  refine ⟨patchUser_400_iff s id b user h,
    fun errs hv hne => patchUser_of_errors s id b user errs h hv hne, ?_⟩
  intro errs hv
  obtain ⟨c₁, c₂, c₃, h₁, h₂, h₃, hm⟩ := validatePatch_ok b errs hv
  refine ⟨c₁, c₂, c₃, h₁, h₂, h₃, hm, ?_, ?_, ?_, ?_, ?_, ?_⟩
  · intro hn
    rw [hn] at h₁
    simpa [patchNameRejected, isDefined, pure, Except.pure] using h₁.symm
  · intro nm hn
    obtain ⟨c, hc, hiff⟩ := nameRejected_str nm
    rw [hn] at h₁
    simp only [patchNameRejected, isDefined, if_true, hc, Except.ok.injEq] at h₁
    rw [← h₁]
    exact hiff
  · intro he
    rw [he] at h₂
    simpa [patchEmailRejected, isDefined, pure, Except.pure] using h₂.symm
  · intro em he
    obtain ⟨c, hc, hiff⟩ := emailRejected_str em
    rw [he] at h₂
    simp only [patchEmailRejected, isDefined, if_true, hc, Except.ok.injEq] at h₂
    rw [← h₂]
    exact hiff
  · intro ha
    rw [ha] at h₃
    simpa [patchAgeRejected, isDefined, pure, Except.pure] using h₃.symm
  · intro m e ha
    obtain ⟨c, hc, hiff⟩ := patchAgeRejected_num m e
    rw [ha, hc] at h₃
    rw [← Except.ok.inj h₃]
    exact hiff

/-- C16, amended, at the seed state on
`PATCH /api/users/1 {name: " ", email: "nope", age: 121}`: 400 with the three
messages and the seed state unmodified. -/
theorem patch_validation_witness :
    patchUser seed "1" ⟨.str " ", .str "nope", .num 121 0⟩
      = (seed, .validation ["Name cannot be empty", "Valid email is required",
          "Age must be between 1 and 120"]) :=
  (patch_validation seed "1" ⟨.str " ", .str "nope", .num 121 0⟩
    ⟨1, "John Doe", "john@example.com", some 30⟩ (by decide)).2.1 _ rfl (by decide)

/-! ## Falsy values in a partial update -/

/-- A falsy value that is present converts to a number below 1. -/
theorem lessThan_one_of_falsy (v : JSValue) (hd : isDefined v = true)
    (hf : truthy v = false) : lessThan v 1 = .ok true := by
  cases v with
  | undefined => simp [isDefined] at hd
  | null => rfl
  | bool x =>
    simp only [truthy] at hf
    subst hf
    rfl
  | num m e =>
    have hm : m = 0 := by simpa [truthy] using hf
    subst hm
    simp only [lessThan, toNumber, Except.map, Except.ok.injEq]
    rw [lt_fin_iff]
    simp [numValue]
  | str sv =>
    have hdat : sv.data = [] := by simpa [truthy] using hf
    have hs : sv = "" := String.ext hdat
    subst hs
    rfl
  | arr hasAt joined => simp [truthy] at hf
  | obj own => simp [truthy] at hf

/-- C17, counterexample. At the seed state `PATCH /api/users/1 {age: 0}` is
answered with a validation failure, 400, not with 200. -/
theorem patch_zero_age_rejected :
    patchUser seed "1" ⟨.undefined, .undefined, .num 0 0⟩
        = (seed, .validation ["Age must be between 1 and 120"])
      ∧ ¬ (patchUser seed "1" ⟨.undefined, .undefined, .num 0 0⟩).2.status = 200 := by
  refine ⟨by decide, by decide⟩

/-- C17, amended. Present-but-falsy fields of a `PATCH` are rejected, not
skipped: for every state and live id, `{age: 0}` is answered with 400 and the
message `Age must be between 1 and 120`, the state staying as it was; and
whenever the validation returns, a present falsy name or a string name empty
after trimming puts `Name cannot be empty` in the list, a present falsy email
puts `Valid email is required` there, a present falsy age puts
`Age must be between 1 and 120` there, and any message makes the answer 400
with the state unchanged, whatever the other fields are. -/
theorem patch_falsy_rejected (s : Store) (id : String) (user : User)
    (h : findUserById s.users id = some user) :
    patchUser s id ⟨.undefined, .undefined, .num 0 0⟩
        = (s, .validation ["Age must be between 1 and 120"])
      ∧ ∀ b errs, validatePatch b = .ok errs →
        ((isDefined b.name = true ∧ truthy b.name = false) ∨ (∃ nm, b.name = .str nm ∧ trim nm = "")
            → "Name cannot be empty" ∈ errs)
          ∧ (isDefined b.email = true ∧ truthy b.email = false
            → "Valid email is required" ∈ errs)
          ∧ (isDefined b.age = true ∧ truthy b.age = false
            → "Age must be between 1 and 120" ∈ errs)
          ∧ (errs ≠ [] → patchUser s id b = (s, .validation errs)) := by
  refine ⟨patchUser_of_errors s id _ user _ h rfl (by decide), ?_⟩
  intro b errs hv
  obtain ⟨c₁, c₂, c₃, h₁, h₂, h₃, hm⟩ := validatePatch_ok b errs hv
  obtain ⟨m₁, m₂, m₃⟩ := mem_patchMessagesFor c₁ c₂ c₃
  refine ⟨?_, ?_, ?_, fun hne => patchUser_of_errors s id b user errs h hv hne⟩
  · intro hcase
    rw [hm, m₁]
    rcases hcase with ⟨hd, hf⟩ | ⟨nm, hn, ht⟩
    · simp only [patchNameRejected, hd, if_true, nameRejected, hf, Bool.not_false,
        Except.ok.injEq] at h₁
      exact h₁.symm
    · obtain ⟨c, hc, hiff⟩ := nameRejected_str nm
      rw [hn] at h₁
      simp only [patchNameRejected, isDefined, if_true, hc, Except.ok.injEq] at h₁
      rw [← h₁]
      exact hiff.mpr ht
  · rintro ⟨hd, hf⟩
    rw [hm, m₂]
    simp only [patchEmailRejected, hd, if_true, emailRejected, hf, Bool.not_false,
      Except.ok.injEq] at h₂
    exact h₂.symm
  · rintro ⟨hd, hf⟩
    rw [hm, m₃]
    simp only [patchAgeRejected, hd, if_true, lessThan_one_of_falsy b.age hd hf,
      Except.ok.injEq] at h₃
    exact h₃.symm

/-- C17, amended, at the seed state: a blank name next to a valid email and a
valid age is answered with 400 and `Name cannot be empty`, and nothing is
applied. -/
theorem patch_falsy_rejected_witness :
    patchUser seed "1" ⟨.str "   ", .str "new@x.y", .num 40 0⟩
      = (seed, .validation ["Name cannot be empty"]) :=
  ((patch_falsy_rejected seed "1" ⟨1, "John Doe", "john@example.com", some 30⟩ (by decide)).2
    ⟨.str "   ", .str "new@x.y", .num 40 0⟩ ["Name cannot be empty"] rfl).2.2.2 (by decide)

/-! ## Not found -/

/-- The helper `findUserById` finds nothing exactly when no record has the id. -/
theorem find_none_iff (users : List User) (id : String) :
    findUserById users id = none ↔ IdAbsent users id := by
  simp [findUserById, IdAbsent]

/-- The index search of `DELETE` finds nothing exactly when no record has the
id. -/
theorem findIdx_none_iff (users : List User) (id : String) :
    users.findIdx? (matchesId id) = none ↔ IdAbsent users id := by
  rw [List.findIdx?_eq_none_iff]
  rfl

/-- Only the answer `notFound` has status 404. -/
theorem status_404_iff (r : Response) : r.status = 404 ↔ r = .notFound := by
  cases r <;> simp [Response.status]

/-- Once a record is found, `replaceUser` does not answer `notFound`. -/
theorem replaceUser_found (s : Store) (id : String) (b : Body) (user : User)
    (h : findUserById s.users id = some user) : (replaceUser s id b).2 ≠ .notFound := by
  simp only [replaceUser, h]
  repeat' split
  all_goals simp

/-- Once a record is found, `patchUser` does not answer `notFound`. -/
theorem patchUser_found (s : Store) (id : String) (b : Body) (user : User)
    (h : findUserById s.users id = some user) : (patchUser s id b).2 ≠ .notFound := by
  simp only [patchUser, h]
  repeat' split
  all_goals simp

/-- C18. For every state, route parameter and body, each of `GET`, `PUT`,
`PATCH` and `DELETE` answers 404 if and only if no live record has the id the
parameter reads as; `PUT` and `PATCH` then answer 404 whatever the body is
(invalid, colliding or raising), and a 404 answer leaves the list and the
counter unchanged. -/
theorem not_found_iff (s : Store) (id : String) (b : Body) :
    ((getUser s id).2.status = 404 ↔ IdAbsent s.users id)
      ∧ ((replaceUser s id b).2.status = 404 ↔ IdAbsent s.users id)
      ∧ ((patchUser s id b).2.status = 404 ↔ IdAbsent s.users id)
      ∧ ((deleteUser s id).2.status = 404 ↔ IdAbsent s.users id)
      ∧ (IdAbsent s.users id →
          getUser s id = (s, .notFound) ∧ replaceUser s id b = (s, .notFound)
            ∧ patchUser s id b = (s, .notFound) ∧ deleteUser s id = (s, .notFound)) := by
  have hall : IdAbsent s.users id →
      getUser s id = (s, .notFound) ∧ replaceUser s id b = (s, .notFound)
        ∧ patchUser s id b = (s, .notFound) ∧ deleteUser s id = (s, .notFound) := by
    intro ha
    have hf := (find_none_iff s.users id).mpr ha
    have hi := (findIdx_none_iff s.users id).mpr ha
    refine ⟨by simp [getUser, hf], by simp [replaceUser, hf], by simp [patchUser, hf],
      by simp [deleteUser, hi]⟩
  refine ⟨?_, ?_, ?_, ?_, hall⟩
  · rw [status_404_iff]
    constructor
    · intro hr
      rw [← find_none_iff]
      cases hf : findUserById s.users id with
      | none => rfl
      | some user => simp [getUser, hf] at hr
    · intro ha
      rw [(hall ha).1]
  · rw [status_404_iff]
    constructor
    · intro hr
      rw [← find_none_iff]
      cases hf : findUserById s.users id with
      | none => rfl
      | some user => exact absurd hr (replaceUser_found s id b user hf)
    · intro ha
      rw [(hall ha).2.1]
  · rw [status_404_iff]
    constructor
    · intro hr
      rw [← find_none_iff]
      cases hf : findUserById s.users id with
      | none => rfl
      | some user => exact absurd hr (patchUser_found s id b user hf)
    · intro ha
      rw [(hall ha).2.2.1]
  · rw [status_404_iff]
    constructor
    · intro hr
      rw [← findIdx_none_iff]
      cases hf : s.users.findIdx? (matchesId id) with
      | none => rfl
      | some i => simp [deleteUser, hf] at hr
    · intro ha
      rw [(hall ha).2.2.2]

/-- C18, at the seed state and the route parameter `999`, with a body that is
invalid and whose email is the one of record 1: all four handlers answer
`notFound` and return the seed state. -/
theorem not_found_iff_witness :
    IdAbsent seed.users "999"
      ∧ getUser seed "999" = (seed, .notFound)
      ∧ replaceUser seed "999" ⟨.str "", .str "john@example.com", .num 0 0⟩ = (seed, .notFound)
      ∧ patchUser seed "999" ⟨.str "", .str "john@example.com", .num 0 0⟩ = (seed, .notFound)
      ∧ deleteUser seed "999" = (seed, .notFound) :=
  ⟨by unfold IdAbsent; decide,
   (not_found_iff seed "999" ⟨.str "", .str "john@example.com", .num 0 0⟩).2.2.2.2
     (by unfold IdAbsent; decide)⟩

/-! ## Deletion -/

/-- A list splits around the element at a given position. -/
theorem split_at_index (l : List User) (i : Nat) (u : User) (h : l[i]? = some u) :
    l = l.take i ++ u :: l.drop (i + 1) := by
  obtain ⟨hlt, hu⟩ := List.getElem?_eq_some.mp h
  have hd : l.drop i = u :: l.drop (i + 1) := by
    rw [List.drop_eq_getElem_cons hlt, hu]
  calc l = l.take i ++ l.drop i := (List.take_append_drop i l).symm
    _ = l.take i ++ u :: l.drop (i + 1) := by rw [hd]

/-- C19. In every reachable state, for every live record `u` and every route
parameter that reads as its id, `DELETE` is answered with 200 and the record
`u`; the new list is the old one with exactly that record taken out, the
records before and after it staying as they were and in their order, its length
is one less, and the counter is unchanged. -/
theorem delete_postcondition (s : Store) (id : String) (u : User) (hs : Reachable s)
    (hu : u ∈ s.users) (hm : matchesId id u = true) :
    ∃ l₁ l₂, s.users = l₁ ++ u :: l₂
      ∧ deleteUser s id = ({ users := l₁ ++ l₂, nextId := s.nextId }, .deleted (some u))
      ∧ (deleteUser s id).2.status = 200
      ∧ (deleteUser s id).1.users.length + 1 = s.users.length := by
  obtain ⟨hp, -⟩ := idInv_reachable s hs
  cases hf : s.users.findIdx? (matchesId id) with
  | none =>
    have := (findIdx_none_iff s.users id).mp hf u hu
    rw [hm] at this
    exact absurd this (by simp)
  | some i =>
    obtain ⟨⟨w, hw, -⟩, hrest⟩ := findIdx?_eraseIdx id id rfl s.users i hp hf
    obtain ⟨j, hj⟩ := List.mem_iff_getElem?.mp hu
    have hji : j = i := by
      by_contra hne
      have hmem : u ∈ s.users.eraseIdx i :=
        List.mem_eraseIdx_iff_getElem?.mpr ⟨j, hne, hj⟩
      have := hrest u hmem
      rw [hm] at this
      exact absurd this (by simp)
    subst hji
    have hwu : w = u := by
      rw [hj] at hw
      exact (Option.some.inj hw).symm
    subst hwu
    have hsplit := split_at_index s.users j w hj
    have hdel : deleteUser s id
        = ({ users := s.users.take j ++ s.users.drop (j + 1), nextId := s.nextId },
           .deleted (some w)) := by
      simp [deleteUser, hf, hj, List.eraseIdx_eq_take_drop_succ]
    refine ⟨s.users.take j, s.users.drop (j + 1), hsplit, hdel, by rw [hdel]; rfl, ?_⟩
    rw [hdel]
    have hlen := congrArg List.length hsplit
    simp only [List.length_append, List.length_cons] at hlen ⊢
    omega

/-- C19, at the seed state: `DELETE /api/users/2` returns record 2 and leaves
records 1 and 3, in this order, with the counter at 4. -/
theorem delete_postcondition_witness :
    ∃ l₁ l₂, seed.users = l₁ ++ ⟨2, "Jane Smith", "jane@example.com", some 25⟩ :: l₂
      ∧ deleteUser seed "2"
        = ({ users := l₁ ++ l₂, nextId := 4 },
           .deleted (some ⟨2, "Jane Smith", "jane@example.com", some 25⟩)) := by
  obtain ⟨l₁, l₂, h₁, h₂, -, -⟩ :=
    delete_postcondition seed "2" ⟨2, "Jane Smith", "jane@example.com", some 25⟩ ⟨[], rfl⟩
      (by decide) (by decide)
  exact ⟨l₁, l₂, h₁, h₂⟩

/-! ## Replacement: success -/

/-- A valid body whose email is strictly equal to no stored email of another
record: either name and email are strings and the record found is overwritten
in place, or the email is an array and the handler raises after assigning the
name. -/
theorem replaceUser_of_free (s : Store) (id : String) (b : Body) (user : User) (k : Nat)
    (hk : FirstMatch s.users id k user) (hv : validateUser b = .ok [])
    (hf : s.users.find? (fun u => strictEq u.email b.email && u.id != user.id) = none) :
    (∃ nm em ag, b.name = .str nm ∧ b.email = .str em ∧ parseInt b.age = .ok ag
        ∧ replaceUser s id b =
          ({ users := s.users.set k ⟨user.id, trim nm, toLowerCase (trim em), ag⟩,
             nextId := s.nextId },
           .updated ⟨user.id, trim nm, toLowerCase (trim em), ag⟩))
      ∨ (∃ nm joined, b.name = .str nm ∧ b.email = .arr true joined
        ∧ replaceUser s id b =
          ({ users := s.users.set k { user with name := trim nm }, nextId := s.nextId },
           .serverError)) := by
  have hfind := find_of_firstMatch s.users id k user hk
  obtain ⟨c₁, c₂, c₃, h₁, h₂, h₃, hm⟩ := validateUser_ok b [] hv
  obtain ⟨rfl, rfl, rfl⟩ := (messagesFor_eq_nil c₁ c₂ c₃).mp hm.symm
  obtain ⟨nm, hnm, -⟩ := nameRejected_false b.name h₁
  obtain ⟨-, x, hx, -, -⟩ := ageRejected_false b.age h₃
  obtain ⟨ag, hag⟩ := parseInt_of_toNumber b.age x hx
  have e₁ := assignFound_eq_set s.users id k user (fun u => { u with name := trim nm }) hk
  have m₁ := firstMatch_set s.users id k user { user with name := trim nm } hk rfl
  rcases emailRejected_false b.email h₂ with ⟨em, hem, -⟩ | ⟨joined, hj⟩
  · left
    refine ⟨nm, em, ag, hnm, hem, hag, ?_⟩
    have e₂ := assignFound_eq_set _ id k _
      (fun u => { u with email := toLowerCase (trim em) }) m₁
    have m₂ := firstMatch_set _ id k _
      { user with name := trim nm, email := toLowerCase (trim em) } m₁ rfl
    simp only [List.set_set] at e₂ m₂
    have e₃ := assignFound_eq_set _ id k _ (fun u => { u with age := ag }) m₂
    simp only [List.set_set] at e₃
    rw [hem] at hf
    simp only [replaceUser, hfind, hv, hf, hnm, hem, hag, callTrim, List.length_nil,
      gt_iff_lt, Nat.lt_irrefl, if_false, e₁, e₂, e₃, List.set_set]
  · right
    refine ⟨nm, joined, hnm, hj, ?_⟩
    rw [hj] at hf
    simp only [replaceUser, hfind, hv, hf, hnm, hj, callTrim, List.length_nil,
      gt_iff_lt, Nat.lt_irrefl, if_false, e₁]

/-- What an answer 200 of `replaceUser` says about the body, the record and the
new state. -/
theorem replaceUser_updated (s : Store) (id : String) (b : Body) (r : User)
    (h : (replaceUser s id b).2 = .updated r) :
    ∃ user k nm em ag, FirstMatch s.users id k user ∧ validateUser b = .ok []
      ∧ s.users.find? (fun u => strictEq u.email b.email && u.id != user.id) = none
      ∧ b.name = .str nm ∧ b.email = .str em ∧ parseInt b.age = .ok ag
      ∧ r = ⟨user.id, trim nm, toLowerCase (trim em), ag⟩
      ∧ (replaceUser s id b).1 = { users := s.users.set k r, nextId := s.nextId } := by
  cases hfind : findUserById s.users id with
  | none => simp [replaceUser, hfind] at h
  | some user =>
    obtain ⟨k, hk⟩ := firstMatch_of_find s.users id user hfind
    cases hv : validateUser b with
    | error err => simp [replaceUser_of_throw s id b user err hfind hv] at h
    | ok errs =>
      by_cases hne : errs = []
      · subst hne
        cases hf : s.users.find? (fun u => strictEq u.email b.email && u.id != user.id) with
        | some w => simp [replaceUser_of_taken s id b user w hfind hv hf] at h
        | none =>
          rcases replaceUser_of_free s id b user k hk hv hf with
            ⟨nm, em, ag, hnm, hem, hag, e⟩ | ⟨nm, joined, -, -, e⟩
          · rw [e] at h
            simp only [Response.updated.injEq] at h
            refine ⟨user, k, nm, em, ag, hk, rfl, hf, hnm, hem, hag, h.symm, ?_⟩
            rw [e, ← h]
          · simp [e] at h
      · simp [replaceUser_of_errors s id b user errs hfind hv hne] at h

/-- C20. For every state, live id and body, if `replaceUser` answers 200 with a
record, the identical call repeated at once answers 200 with the same record
and leaves the state as the first call left it; it is not rejected as a
conflict with the email the first call stored. -/
theorem replace_idempotent (s : Store) (id : String) (b : Body) (r : User)
    (h : (replaceUser s id b).2 = .updated r) :
    replaceUser (replaceUser s id b).1 id b = ((replaceUser s id b).1, .updated r) := by
  obtain ⟨user, k, nm, em, ag, hk, hv, hf, hnm, hem, hag, hr, hst⟩ :=
    replaceUser_updated s id b r h
  have hid : r.id = user.id := by rw [hr]
  have hk' : FirstMatch (s.users.set k r) id k r := firstMatch_set s.users id k user r hk hid
  have hf' : (s.users.set k r).find? (fun u => strictEq u.email b.email && u.id != r.id)
      = none := by
    rw [List.find?_eq_none] at hf ⊢
    intro u hu
    rcases List.mem_or_eq_of_mem_set hu with hmem | heq
    · rw [hid]
      exact hf u hmem
    · rw [heq]
      simp
  rw [hst]
  rcases replaceUser_of_free { users := s.users.set k r, nextId := s.nextId } id b r k hk' hv hf'
    with ⟨nm', em', ag', hnm', hem', hag', e⟩ | ⟨nm', joined, -, hj, -⟩
  · rw [hnm] at hnm'
    rw [hem] at hem'
    rw [hag] at hag'
    have e₁ : nm' = nm := by simpa using hnm'.symm
    have e₂ : em' = em := by simpa using hem'.symm
    have e₃ : ag' = ag := by simpa using hag'.symm
    subst e₁ e₂ e₃
    have hr' : (⟨r.id, trim nm', toLowerCase (trim em'), ag'⟩ : User) = r := by
      rw [hr]
    rw [e, hr']
    simp only [List.set_set]
  · rw [hem] at hj
    simp at hj

/-- C20, at the seed state: `PUT /api/users/1` with
`(" Johnny ", "JOHNNY@Example.com", 31)` twice in a row gives the same answer
and the same state as once. -/
theorem replace_idempotent_witness :
    (replaceUser seed "1" ⟨.str " Johnny ", .str "JOHNNY@Example.com", .num 31 0⟩).2
        = .updated ⟨1, "Johnny", "johnny@example.com", some 31⟩
      ∧ replaceUser
          (replaceUser seed "1" ⟨.str " Johnny ", .str "JOHNNY@Example.com", .num 31 0⟩).1
          "1" ⟨.str " Johnny ", .str "JOHNNY@Example.com", .num 31 0⟩
        = ((replaceUser seed "1" ⟨.str " Johnny ", .str "JOHNNY@Example.com", .num 31 0⟩).1,
           .updated ⟨1, "Johnny", "johnny@example.com", some 31⟩) :=
  ⟨by decide,
   replace_idempotent seed "1" ⟨.str " Johnny ", .str "JOHNNY@Example.com", .num 31 0⟩
     ⟨1, "Johnny", "johnny@example.com", some 31⟩ (by decide)⟩

/-! ## Partial update: what stays -/

/-- A store is its list and its counter. -/
theorem store_eta (s : Store) : ({ users := s.users, nextId := s.nextId } : Store) = s := rfl

/-- The assignment of the name writes position `k` and touches the name
only, and nothing when the name is absent. -/
theorem applyName_set (s s₁ : Store) (id : String) (user user₁ : User) (b : Body) (k : Nat)
    (hk : FirstMatch s.users id k user) (h : applyName s id user b = .ok (s₁, user₁)) :
    s₁ = { users := s.users.set k user₁, nextId := s.nextId }
      ∧ user₁.id = user.id ∧ user₁.email = user.email ∧ user₁.age = user.age
      ∧ (b.name = .undefined → user₁.name = user.name) := by
  unfold applyName at h
  split at h
  · rename_i ht
    cases hc : callTrim b.name with
    | error err => simp [hc, Except.map] at h
    | ok name =>
      simp only [hc, Except.map, Except.ok.injEq, Prod.mk.injEq] at h
      obtain ⟨rfl, rfl⟩ := h
      refine ⟨?_, rfl, rfl, rfl, ?_⟩
      · simp only [assignFound_eq_set s.users id k user _ hk]
      · intro hu
        rw [hu] at ht
        simp [truthy] at ht
  · simp only [Except.ok.injEq, Prod.mk.injEq] at h
    obtain ⟨rfl, rfl⟩ := h
    refine ⟨?_, rfl, rfl, rfl, fun _ => rfl⟩
    rw [set_self s.users k user hk.1]

/-- The assignment of the email writes position `k` and touches the email
only, and nothing when the email is absent. -/
theorem applyEmail_set (s s₁ : Store) (id : String) (user user₁ : User) (b : Body) (k : Nat)
    (hk : FirstMatch s.users id k user) (h : applyEmail s id user b = .ok (s₁, user₁)) :
    s₁ = { users := s.users.set k user₁, nextId := s.nextId }
      ∧ user₁.id = user.id ∧ user₁.name = user.name ∧ user₁.age = user.age
      ∧ (b.email = .undefined → user₁.email = user.email) := by
  unfold applyEmail at h
  split at h
  · rename_i ht
    cases hc : callTrim b.email with
    | error err => simp [hc, Except.map] at h
    | ok email =>
      simp only [hc, Except.map, Except.ok.injEq, Prod.mk.injEq] at h
      obtain ⟨rfl, rfl⟩ := h
      refine ⟨?_, rfl, rfl, rfl, ?_⟩
      · simp only [assignFound_eq_set s.users id k user _ hk]
      · intro hu
        rw [hu] at ht
        simp [truthy] at ht
  · simp only [Except.ok.injEq, Prod.mk.injEq] at h
    obtain ⟨rfl, rfl⟩ := h
    refine ⟨?_, rfl, rfl, rfl, fun _ => rfl⟩
    rw [set_self s.users k user hk.1]

/-- The assignment of the age writes position `k` and touches the age only,
and nothing when the age is absent. -/
theorem applyAge_set (s s₁ : Store) (id : String) (user user₁ : User) (b : Body) (k : Nat)
    (hk : FirstMatch s.users id k user) (h : applyAge s id user b = .ok (s₁, user₁)) :
    s₁ = { users := s.users.set k user₁, nextId := s.nextId }
      ∧ user₁.id = user.id ∧ user₁.name = user.name ∧ user₁.email = user.email
      ∧ (b.age = .undefined → user₁.age = user.age) := by
  unfold applyAge at h
  split at h
  · rename_i ht
    cases hc : parseInt b.age with
    | error err => simp [hc, Except.map] at h
    | ok age =>
      simp only [hc, Except.map, Except.ok.injEq, Prod.mk.injEq] at h
      obtain ⟨rfl, rfl⟩ := h
      refine ⟨?_, rfl, rfl, rfl, ?_⟩
      · simp only [assignFound_eq_set s.users id k user _ hk]
      · intro hu
        rw [hu] at ht
        simp [truthy] at ht
  · simp only [Except.ok.injEq, Prod.mk.injEq] at h
    obtain ⟨rfl, rfl⟩ := h
    refine ⟨?_, rfl, rfl, rfl, fun _ => rfl⟩
    rw [set_self s.users k user hk.1]

/-- What an answer 200 of `patchUser` says about the record and the new
state. -/
theorem patchUser_updated (s : Store) (id : String) (b : Body) (r : User)
    (h : (patchUser s id b).2 = .updated r) :
    ∃ user k, FirstMatch s.users id k user
      ∧ (patchUser s id b).1 = { users := s.users.set k r, nextId := s.nextId }
      ∧ r.id = user.id
      ∧ (b.name = .undefined → r.name = user.name)
      ∧ (b.email = .undefined → r.email = user.email)
      ∧ (b.age = .undefined → r.age = user.age) := by
  cases hfind : findUserById s.users id with
  | none => simp [patchUser, hfind] at h
  | some user =>
    obtain ⟨k, hk⟩ := firstMatch_of_find s.users id user hfind
    refine ⟨user, k, hk, ?_⟩
    simp only [patchUser, hfind] at h ⊢
    split at h
    · simp at h
    · rename_i errs hv
      split at h
      · simp at h
      · rename_i hlen
        split at h
        · simp at h
        · rename_i hconf
          simp only [hlen, hconf, if_false]
          cases h₁ : applyName s id user b with
          | error err => simp [h₁] at h
          | ok r₁ =>
            obtain ⟨s₁, user₁⟩ := r₁
            obtain ⟨e₁, i₁, m₁, a₁, n₁⟩ := applyName_set s s₁ id user user₁ b k hk h₁
            have hk₁ : FirstMatch s₁.users id k user₁ := by
              rw [e₁]
              exact firstMatch_set s.users id k user user₁ hk i₁
            simp only [h₁] at h ⊢
            cases h₂ : applyEmail s₁ id user₁ b with
            | error err => simp [h₂] at h
            | ok r₂ =>
              obtain ⟨s₂, user₂⟩ := r₂
              obtain ⟨e₂, i₂, n₂, a₂, m₂⟩ := applyEmail_set s₁ s₂ id user₁ user₂ b k hk₁ h₂
              have hk₂ : FirstMatch s₂.users id k user₂ := by
                rw [e₂]
                exact firstMatch_set s₁.users id k user₁ user₂ hk₁ i₂
              simp only [h₂] at h ⊢
              cases h₃ : applyAge s₂ id user₂ b with
              | error err => simp [h₃] at h
              | ok r₃ =>
                obtain ⟨s₃, user₃⟩ := r₃
                obtain ⟨e₃, i₃, n₃, m₃, a₃⟩ := applyAge_set s₂ s₃ id user₂ user₃ b k hk₂ h₃
                simp only [h₃, Response.updated.injEq] at h ⊢
                subst h
                refine ⟨?_, ?_, ?_, ?_, ?_⟩
                · rw [e₃, e₂, e₁]
                  simp [List.set_set]
                · rw [i₃, i₂, i₁]
                · intro hu
                  rw [n₃, n₂, n₁ hu]
                · intro hu
                  rw [m₃, m₂ hu, m₁]
                · intro hu
                  rw [a₃ hu, a₂, a₁]

/-- C14. Whenever `patchUser` answers 200 with a record `r`: the new list is
the old one with `r` written over the record found, at its position, every
other record and the order of the list being as before, the counter is
unchanged, `r` has the id of the record found, and every field of it that is
absent from the updates has its old value. A patch with no field at all is
answered with 200 and changes nothing. -/
theorem patch_preserves (s : Store) (id : String) (b : Body) (r : User)
    (h : (patchUser s id b).2 = .updated r) :
    (∃ user k, s.users[k]? = some user ∧ findUserById s.users id = some user
        ∧ (patchUser s id b).1 = { users := s.users.set k r, nextId := s.nextId }
        ∧ r.id = user.id
        ∧ (b.name = .undefined → r.name = user.name)
        ∧ (b.email = .undefined → r.email = user.email)
        ∧ (b.age = .undefined → r.age = user.age))
      ∧ ∀ user, findUserById s.users id = some user →
          patchUser s id ⟨.undefined, .undefined, .undefined⟩ = (s, .updated user) := by
  obtain ⟨user, k, hk, hst, hid, hn, he, ha⟩ := patchUser_updated s id b r h
  refine ⟨⟨user, k, hk.1, find_of_firstMatch s.users id k user hk, hst, hid, hn, he, ha⟩, ?_⟩
  intro u hu
  have hv : validatePatch ⟨.undefined, .undefined, .undefined⟩ = .ok [] := rfl
  simp [patchUser, hu, hv, truthy, applyName, applyEmail, applyAge]

/-- C14, at the seed state: `PATCH /api/users/1 {name: "New"}` changes the name
of record 1 and nothing else. -/
theorem patch_preserves_witness :
    patchUser seed "1" ⟨.str "New", .undefined, .undefined⟩
        = ({ users := seed.users.set 0 ⟨1, "New", "john@example.com", some 30⟩, nextId := 4 },
           .updated ⟨1, "New", "john@example.com", some 30⟩)
      ∧ ∃ (user : User) (k : Nat), seed.users[k]? = some user
          ∧ (⟨1, "New", "john@example.com", some 30⟩ : User).email = user.email
          ∧ (⟨1, "New", "john@example.com", some 30⟩ : User).age = user.age := by
  refine ⟨by decide, ?_⟩
  obtain ⟨⟨user, k, hk, -, -, -, -, he, ha⟩, -⟩ :=
    patch_preserves seed "1" ⟨.str "New", .undefined, .undefined⟩
      ⟨1, "New", "john@example.com", some 30⟩ (by decide)
  exact ⟨user, k, hk, he rfl, ha rfl⟩

end RestApi
